import Mathlib

/-!
Verification of the Couple Planner repository's Planner State Synchronization
Engine, Recurrence Projection, Action Reducer and Budget/Goal aggregation
against its specification.

The data model is translated from src/types.ts.  JavaScript numbers on
document fields are modelled as integers (the JSON-serialized documents this
development reasons about carry integral numerics); the goal-progress
computation, which divides and rounds, is modelled separately with exact
rational arithmetic.  JSON.stringify is modelled char-for-char (object keys in
the declaration order of types.ts, undefined/absent optional properties
omitted, strings escaped).  All definitions are fuel-free structural
recursions or carry explicit fuel with a comment justifying sufficiency, so
that every definition evaluates inside the kernel.
-/

namespace CouplePlanner

/-! ## Data model (src/types.ts) -/

/-- types.ts: `ActivityCost = 'Free' | 'Paid'` (field name `category` on events). -/
inductive ActivityCost where
  | Free
  | Paid
deriving DecidableEq

/-- types.ts: `EnergyLevel = 'Low' | 'Medium' | 'High'`. -/
inductive EnergyLevel where
  | Low
  | Medium
  | High
deriving DecidableEq

/-- types.ts: `'Indoor' | 'Outdoor'`. -/
inductive IndoorOutdoor where
  | Indoor
  | Outdoor
deriving DecidableEq

/-- types.ts: `Category` (goal/activity category union). -/
inductive Category where
  | Financial
  | Health
  | Travel
  | Relationship
  | Career
  | Adventure
  | Creative
  | Relaxing
  | Growth
deriving DecidableEq

/-- types.ts: `GoalStatus = 'Not Started' | 'In Progress' | 'Completed'`. -/
inductive GoalStatus where
  | NotStarted
  | InProgress
  | Completed
deriving DecidableEq

/-- types.ts: `ActivityScope = 'Shared' | 'Individual'`. -/
inductive ActivityScope where
  | Shared
  | Individual
deriving DecidableEq

/-- types.ts: `recurrence?: 'None' | 'Weekly' | 'Monthly' | 'Yearly'`.
The value `'None'` is distinct from the property being absent. -/
inductive Recurrence where
  | None
  | Weekly
  | Monthly
  | Yearly
deriving DecidableEq

/-- types.ts: `User`. -/
structure User where
  id : String
  name : String
  avatar : String
deriving DecidableEq

/-- types.ts: `Activity`. -/
structure Activity where
  id : String
  name : String
  category : ActivityCost
  estimatedCost : Int
  duration : String
  energyLevel : EnergyLevel
  indoorOutdoor : IndoorOutdoor
  type : Category
  notes : String
  scope : ActivityScope
  targetUserId : Option String
deriving DecidableEq

/-- types.ts: `CalendarEvent`. -/
structure CalendarEvent where
  id : String
  date : String
  startTime : String
  endTime : String
  recurrence : Option Recurrence
  activityId : Option String
  customName : Option String
  category : ActivityCost
  estimatedCost : Int
  actualCost : Option Int
  duration : String
  notes : String
  createdBy : String
  lastModifiedBy : String
  scope : ActivityScope
  targetUserId : Option String
deriving DecidableEq

/-- types.ts: `GoalTask`. -/
structure GoalTask where
  id : String
  text : String
  completed : Bool
  dueDate : Option String
  dueTime : Option String
  startTime : Option String
  endTime : Option String
deriving DecidableEq

/-- types.ts: `GoalContribution`. -/
structure GoalContribution where
  id : String
  amount : Int
  date : String
  userId : String
  userName : String
deriving DecidableEq

/-- types.ts: `Goal`. -/
structure Goal where
  id : String
  userId : Option String
  title : String
  description : String
  category : Category
  targetDate : String
  targetTime : Option String
  financialTarget : Option Int
  currentAmount : Option Int
  progressPercentage : Int
  status : GoalStatus
  tasks : Option (List GoalTask)
  contributions : Option (List GoalContribution)
deriving DecidableEq

/-- types.ts: `BudgetConfig`. -/
structure BudgetConfig where
  monthlyLimit : Int
deriving DecidableEq

/-- types.ts: `ActivityLog`. -/
structure ActivityLog where
  id : String
  timestamp : String
  message : String
  userName : String
deriving DecidableEq

/-- types.ts: `PlannerState`, the document exchanged with the remote store. -/
structure PlannerState where
  currentUser : User
  partner : User
  activities : List Activity
  events : List CalendarEvent
  sharedGoals : List Goal
  individualGoals : List Goal
  budget : BudgetConfig
  logs : List ActivityLog
deriving DecidableEq

/-! ## JavaScript helper semantics -/

/-- JavaScript `a || b` on a possibly-undefined number `a`: the left operand is
used when it is defined and truthy (nonzero). -/
def jsOrOptInt (a : Option Int) (b : Int) : Int :=
  match a with
  | some x => if x ≠ 0 then x else b
  | none => b

/-- JavaScript `a || b` on a number `a`: the left operand is used when nonzero. -/
def jsOrInt (a b : Int) : Int :=
  if a ≠ 0 then a else b

/-- JavaScript `s || t` on a possibly-undefined string: the left operand is used
when it is defined and nonempty. -/
def jsOrOptStr (a : Option String) (b : String) : String :=
  match a with
  | some s => if s ≠ "" then s else b
  | none => b

/-! ## Dispatch surface (src/App.tsx, the `actions` object)

The reducer actions mutate one collection through `updateState` and then
prepend one log entry through `addLog`.  `addLog`'s random id and timestamp
are inputs here (`Math.random()` / `new Date().toISOString()` in the source). -/

/-- App.tsx `addLog`: prepend a log entry and truncate the log to 50 entries. -/
def addLog (s : PlannerState) (logId timestamp message : String) : PlannerState :=
  let newLog : ActivityLog :=
    { id := logId, timestamp := timestamp, message := message,
      userName := s.currentUser.name }
  { s with logs := (newLog :: s.logs).take 50 }

/-- App.tsx `actions.addActivity`. -/
def addActivity (s : PlannerState) (a : Activity) (logId timestamp : String) : PlannerState :=
  addLog { s with activities := s.activities ++ [a] } logId timestamp
    ("Created activity: " ++ a.name)

/-- App.tsx `actions.deleteActivity`. -/
def deleteActivity (s : PlannerState) (i : String) (logId timestamp : String) : PlannerState :=
  addLog { s with activities := s.activities.filter (fun a => a.id ≠ i) } logId timestamp
    "Deleted an activity"

/-- App.tsx `actions.addEvent`. -/
def addEvent (s : PlannerState) (e : CalendarEvent) (logId timestamp : String) : PlannerState :=
  addLog { s with events := s.events ++ [e] } logId timestamp
    ("Added calendar event: " ++ jsOrOptStr e.customName "Activity")

/-- App.tsx `actions.deleteEvent`. -/
def deleteEvent (s : PlannerState) (i : String) (logId timestamp : String) : PlannerState :=
  addLog { s with events := s.events.filter (fun e => e.id ≠ i) } logId timestamp
    "Removed an event from calendar"

/-- The operation keys of the `actions` object literal exposed to the UI
(App.tsx lines 861-906), in source order. -/
def dispatchSurfaceKeys : List String :=
  ["addActivity", "updateActivity", "deleteActivity",
   "addEvent", "updateEvent", "deleteEvent",
   "addSharedGoal", "updateSharedGoal",
   "addIndividualGoal", "updateIndividualGoal",
   "updateBudgetLimit"]

/-- The property names GoalsSystem reads off `actions` for the detail modal's
`onDelete` callback (`actions.deleteSharedGoal` on the shared tab,
`actions.deleteIndividualGoal` on the individual tab). -/
def goalsSystemOnDeleteKey (sharedTab : Bool) : String :=
  if sharedTab then "deleteSharedGoal" else "deleteIndividualGoal"

/-! ## Decimal digit strings

`natCharsGo` carries explicit fuel so that it is a structural recursion the
kernel can evaluate; fuel `n + 1` always exceeds the number of decimal digits
of `n`. -/

/-- The decimal digit character for `d < 10`. -/
def digitChar (d : Nat) : Char := Char.ofNat (48 + d)

/-- Most-significant-first decimal digits of `n`, with fuel. -/
def natCharsGo : Nat → Nat → List Char
  | 0, _ => []
  | fuel + 1, n =>
    if n < 10 then [digitChar n]
    else natCharsGo fuel (n / 10) ++ [digitChar (n % 10)]

/-- Decimal representation of a natural number, as JavaScript `String(n)`. -/
def natChars (n : Nat) : List Char := natCharsGo (n + 1) n

/-- JavaScript `String(n)` for a natural number. -/
def natStr (n : Nat) : String := String.mk (natChars n)

/-- JavaScript `String(n).padStart(2, '0')`. -/
def pad2 (n : Nat) : String :=
  if n < 10 then String.mk ('0' :: natChars n) else natStr n

/-! ## Calendar dates

The front end works with JavaScript `Date` values that its own code always
constructs at local midnight from `YYYY-MM-DD` strings.  They are modelled as
calendar triples; the model's local timezone is UTC, so parsing a date string
never shifts the calendar day.  Comparison of two such `Date`s by timestamp
coincides with lexicographic comparison of valid triples. -/

/-- A calendar date; `month` is 1-based (JavaScript's `getMonth() + 1`). -/
structure CalDate where
  year : Nat
  month : Nat
  day : Nat
deriving DecidableEq

/-- Gregorian leap-year rule. -/
def isLeapYear (y : Nat) : Bool :=
  (y % 4 == 0 && !(y % 100 == 0)) || y % 400 == 0

/-- Days in a month (1-based); 0 for out-of-range month numbers. -/
def daysInMonth (y m : Nat) : Nat :=
  match m with
  | 1 => 31
  | 2 => if isLeapYear y then 29 else 28
  | 3 => 31
  | 4 => 30
  | 5 => 31
  | 6 => 30
  | 7 => 31
  | 8 => 31
  | 9 => 30
  | 10 => 31
  | 11 => 30
  | 12 => 31
  | _ => 0

/-- A calendar triple that denotes a real date. -/
def validDate (d : CalDate) : Prop :=
  1 ≤ d.month ∧ d.month ≤ 12 ∧ 1 ≤ d.day ∧ d.day ≤ daysInMonth d.year d.month

instance (d : CalDate) : Decidable (validDate d) := by
  unfold validDate; infer_instance

/-- Number of leap years `k` with `1 ≤ k ≤ y`. -/
def leapCount (y : Nat) : Nat := y / 4 - y / 100 + y / 400

/-- Days in the months of year `y` strictly before month `m`. -/
def daysBeforeMonth (y m : Nat) : Nat :=
  let f : Nat := if isLeapYear y then 1 else 0
  match m with
  | 1 => 0
  | 2 => 31
  | 3 => 59 + f
  | 4 => 90 + f
  | 5 => 120 + f
  | 6 => 151 + f
  | 7 => 181 + f
  | 8 => 212 + f
  | 9 => 243 + f
  | 10 => 273 + f
  | 11 => 304 + f
  | 12 => 334 + f
  | _ => 0

/-- Days elapsed since an epoch (day 0 is 0001-01-01 proleptic Gregorian). -/
def dayNumber (d : CalDate) : Nat :=
  365 * (d.year - 1) + leapCount (d.year - 1) + daysBeforeMonth d.year d.month + (d.day - 1)

/-- JavaScript `getDay()`: 0 = Sunday .. 6 = Saturday.  Calibrated so that
2000-01-01 is a Saturday (6). -/
def weekday (d : CalDate) : Nat := (dayNumber d + 1) % 7

/-- Timestamp comparison `a < b` of two local-midnight dates (lexicographic on
valid triples). -/
def dateLtB (a b : CalDate) : Bool :=
  a.year < b.year ||
    (a.year == b.year &&
      (a.month < b.month || (a.month == b.month && a.day < b.day)))

/-- Timestamp comparison `a <= b`. -/
def dateLeB (a b : CalDate) : Bool := !(dateLtB b a)

/-- `new Date(Math.max(a.getTime(), b.getTime()))` on local-midnight dates. -/
def maxDate (a b : CalDate) : CalDate := if dateLtB a b then b else a

/-- `setDate(getDate() + 1)`: the following calendar day. -/
def nextDay (d : CalDate) : CalDate :=
  if d.day < daysInMonth d.year d.month then { d with day := d.day + 1 }
  else if d.month < 12 then { year := d.year, month := d.month + 1, day := 1 }
  else { year := d.year + 1, month := 1, day := 1 }

/-- `setDate(getDate() + n)` as `n` single-day steps. -/
def addDays : Nat → CalDate → CalDate
  | 0, d => d
  | n + 1, d => addDays n (nextDay d)

/-- `new Date(y, m - 1, dayArg)` for a 1-based month `1 ≤ m ≤ 12` and
`1 ≤ dayArg ≤ 31`: out-of-range days roll over into the following month
(the only case the planner's projector can produce). -/
def jsMkDate (y m dayArg : Nat) : CalDate :=
  if dayArg ≤ daysInMonth y m then ⟨y, m, dayArg⟩
  else if m < 12 then ⟨y, m + 1, dayArg - daysInMonth y m⟩
  else ⟨y + 1, 1, dayArg - daysInMonth y m⟩

/-! ## Date-string parsing -/

/-- Decimal digit test. -/
def isDigitChar (c : Char) : Bool := 48 ≤ c.toNat && c.toNat ≤ 57

/-- Numeric value of a digit character. -/
def digitVal (c : Char) : Nat := c.toNat - 48

/-- The regex `^\d{4}-\d{2}-\d{2}$` used by the source to recognize date-only
strings. -/
def isDateOnlyShape (l : List Char) : Bool :=
  match l with
  | [y1, y2, y3, y4, h1, m1, m2, h2, d1, d2] =>
    isDigitChar y1 && isDigitChar y2 && isDigitChar y3 && isDigitChar y4 &&
      h1 == '-' && isDigitChar m1 && isDigitChar m2 &&
      h2 == '-' && isDigitChar d1 && isDigitChar d2
  | _ => false

/-- Parse a `YYYY-MM-DD` character list to a real calendar date.  Mirrors
`new Date(raw + "T00:00:00")` on a date-only string: the engine rejects
out-of-calendar components (yielding an Invalid Date, i.e. `none`). -/
def parseDateKeyChars (l : List Char) : Option CalDate :=
  match l with
  | [y1, y2, y3, y4, h1, m1, m2, h2, d1, d2] =>
    if isDigitChar y1 && isDigitChar y2 && isDigitChar y3 && isDigitChar y4 &&
        h1 == '-' && isDigitChar m1 && isDigitChar m2 &&
        h2 == '-' && isDigitChar d1 && isDigitChar d2 then
      let y := ((digitVal y1 * 10 + digitVal y2) * 10 + digitVal y3) * 10 + digitVal y4
      let m := digitVal m1 * 10 + digitVal m2
      let d := digitVal d1 * 10 + digitVal d2
      if 1 ≤ m && m ≤ 12 && 1 ≤ d && d ≤ daysInMonth y m then some ⟨y, m, d⟩
      else none
    else none
  | _ => none

/-- part_001 `parseEventDate`: date-only strings are parsed at local midnight.
Other formats fall to a general `new Date(raw)` parse in the source; the model
covers the documented event date format (types.ts: ISO string `YYYY-MM-DD`)
and treats everything else as unparseable. -/
def parseEventDate (raw : String) : Option CalDate := parseDateKeyChars raw.data

/-- `toDateKey` / `toLocalDateKey`: the `YYYY-MM-DD` key of a date
(`getMonth() + 1` is already the 1-based `month` field here). -/
def dateKey (c : CalDate) : String :=
  natStr c.year ++ "-" ++ pad2 c.month ++ "-" ++ pad2 c.day

/-- part_003 `toEventDateKey`: date-only strings pass through; other strings
are reformatted via a general date parse when possible, else returned raw.
In this model only date-only strings parse, so the middle branch is inert. -/
def toEventDateKey (raw : String) : String :=
  if isDateOnlyShape raw.data then raw
  else
    match parseDateKeyChars raw.data with
    | some d => dateKey d
    | none => raw

/-! ## Budget aggregation (part_001 BudgetDashboard) -/

/-- `e.actualCost || e.estimatedCost || 0`. -/
def spendOf (e : CalendarEvent) : Int :=
  jsOrOptInt e.actualCost (jsOrInt e.estimatedCost 0)

/-- `monthlyEvents.reduce((acc, e) => acc + (e.actualCost || e.estimatedCost || 0), 0)`. -/
def totalActual (evts : List CalendarEvent) : Int :=
  evts.foldl (fun acc e => acc + spendOf e) 0

/-- `monthlyEvents.reduce((acc, e) => acc + (e.estimatedCost || 0), 0)`. -/
def totalEstimated (evts : List CalendarEvent) : Int :=
  evts.foldl (fun acc e => acc + jsOrInt e.estimatedCost 0) 0

/-- `Math.max(0, state.budget.monthlyLimit - totalActual)`. -/
def remaining (limit : Int) (evts : List CalendarEvent) : Int :=
  max 0 (limit - totalActual evts)

/-- `getWeekOfMonth`: `Math.ceil((day + firstDay) / 7)` where `firstDay` is the
weekday of the first of the month. -/
def getWeekOfMonth (d : CalDate) : Nat :=
  (d.day + weekday ⟨d.year, d.month, 1⟩ + 6) / 7

/-- `weeklyData[weekIdx].spent += spend`: bump index `i` of the bucket list. -/
def bumpAt (w : List Int) (i : Nat) (v : Int) : List Int :=
  w.set i (w.getD i 0 + v)

/-- One step of the weekly-breakdown fold: `weeklyData[weekIdx]` is an object,
truthy exactly when the index is in range (0..4); out-of-range buckets drop the
event.  An unparseable date gives `NaN` indexing, which also drops it. -/
def weeklySpentStep (w : List Int) (e : CalendarEvent) : List Int :=
  match parseDateKeyChars e.date.data with
  | none => w
  | some d =>
    let weekIdx := getWeekOfMonth d - 1
    if weekIdx < 5 then bumpAt w weekIdx (spendOf e) else w

/-- The `spent` column of `weeklyData` after the fold over the month's events. -/
def weeklySpent (evts : List CalendarEvent) : List Int :=
  evts.foldl weeklySpentStep [0, 0, 0, 0, 0]

/-! ## Recurrence projection into a month window (part_001 `monthlyEvents`) -/

/-- A synthetic occurrence: spread of the template with `id` and `date`
replaced. -/
def mkOccurrence (e : CalendarEvent) (c : CalDate) : CalendarEvent :=
  { e with id := e.id ++ "-" ++ dateKey c, date := dateKey c }

/-- `while (cursor.getDay() !== weekday) cursor.setDate(getDate() + 1)`:
the weekday advances cyclically mod 7, so at most 6 steps run; fuel 7 covers
every execution of the source loop. -/
def weeklyAlign : Nat → CalDate → Nat → CalDate
  | 0, c, _ => c
  | fuel + 1, c, w => if weekday c == w then c else weeklyAlign fuel (nextDay c) w

/-- `while (cursor <= endOfMonth) { push occurrence; cursor.setDate(+7) }`:
the cursor starts no earlier than the first of the window month and advances 7
days per iteration, so at most 5 occurrences are pushed; fuel 10 covers every
execution of the source loop. -/
def weeklyCollect (e : CalendarEvent) : Nat → CalDate → CalDate → List CalendarEvent
  | 0, _, _ => []
  | fuel + 1, cur, eom =>
    if dateLeB cur eom then mkOccurrence e cur :: weeklyCollect e fuel (addDays 7 cur) eom
    else []

/-- Expansion of one stored event into the `(y, m)` month window
(part_001 lines 95-153). -/
def expandEventForMonth (y m : Nat) (e : CalendarEvent) : List CalendarEvent :=
  match parseEventDate e.date with
  | none => []
  | some base =>
    match e.recurrence with
    | none => if base.month == m && base.year == y then [e] else []
    | some .None => if base.month == m && base.year == y then [e] else []
    | some .Weekly =>
      let som : CalDate := ⟨y, m, 1⟩
      let eom : CalDate := ⟨y, m, daysInMonth y m⟩
      let start := maxDate base som
      weeklyCollect e 10 (weeklyAlign 7 start (weekday base)) eom
    | some .Monthly =>
      let monthsDiff : Int :=
        ((y : Int) - (base.year : Int)) * 12 + ((m : Int) - (base.month : Int))
      if monthsDiff < 0 then []
      else
        let candidate := jsMkDate y m base.day
        if candidate.month ≠ m then [] else [mkOccurrence e candidate]
    | some .Yearly =>
      if y < base.year then []
      else if m ≠ base.month then []
      else
        let candidate := jsMkDate y m base.day
        if candidate.month ≠ m then [] else [mkOccurrence e candidate]

/-- part_001 `monthlyEvents`: `state.events.flatMap(...)` for the viewed month
(`y`, 1-based `m`). -/
def monthlyEvents (events : List CalendarEvent) (y m : Nat) : List CalendarEvent :=
  events.flatMap (expandEventForMonth y m)

/-! ## Per-day recurrence projection (part_003 `getExpandedEventsForDay`) -/

/-- part_003 `CalendarDisplayEvent`: a calendar event extended with the
view-layer annotations (absent flags read as false). -/
structure DisplayEvent where
  id : String
  date : String
  startTime : String
  endTime : String
  recurrence : Option Recurrence
  activityId : Option String
  customName : Option String
  category : ActivityCost
  estimatedCost : Int
  actualCost : Option Int
  duration : String
  notes : String
  createdBy : String
  lastModifiedBy : String
  scope : ActivityScope
  targetUserId : Option String
  isGoalDerived : Bool
  isBirthdayDerived : Bool
  recurrenceSourceId : Option String
deriving DecidableEq

/-- A synthetic per-day occurrence: spread of the template with `id`, `date`
and `recurrenceSourceId` replaced. -/
def mkDayOccurrence (e : DisplayEvent) (c : CalDate) : DisplayEvent :=
  { e with id := e.id ++ "-" ++ dateKey c, date := dateKey c,
           recurrenceSourceId := some e.id }

/-- part_003 `getExpandedEventsForDay` (lines 147-201).  An unparseable start
date makes every `NaN` comparison false in the source, excluding the event;
the model returns `[]` directly in that case. -/
def getExpandedEventsForDay (evts : List DisplayEvent) (day : CalDate) : List DisplayEvent :=
  let dayKey := dateKey day
  evts.flatMap (fun e =>
    if e.isGoalDerived || e.isBirthdayDerived then
      if toEventDateKey e.date == dayKey then [e] else []
    else
      match e.recurrence with
      | some .Weekly =>
        match parseDateKeyChars (toEventDateKey e.date).data with
        | none => []
        | some start =>
          if dateLtB day start then []
          else if weekday day ≠ weekday start then []
          else [mkDayOccurrence e day]
      | some .Monthly =>
        match parseDateKeyChars (toEventDateKey e.date).data with
        | none => []
        | some start =>
          if dateLtB day start then []
          else if day.day ≠ start.day then []
          else [mkDayOccurrence e day]
      | some .Yearly =>
        match parseDateKeyChars (toEventDateKey e.date).data with
        | none => []
        | some start =>
          if dateLtB day start then []
          else if day.day ≠ start.day then []
          else if day.month ≠ start.month then []
          else [mkDayOccurrence e day]
      | _ => if toEventDateKey e.date == dayKey then [e] else [])

/-! ## Goal progress recomputation (GoalsSystem `calculateProgress`)

The progress computation divides and rounds JavaScript numbers; it is modelled
with exact rational arithmetic on a rational-number mirror of the `Goal`
record restricted to the fields the function reads and writes.
`Number(x.toFixed(2))` is modelled as rounding to two decimals and
`Math.round` as `round` (floor of `x + 1/2`, which is exactly JavaScript's
`Math.round`). -/

/-- The task fields `calculateProgress` reads. -/
structure ProgressTask where
  id : String
  text : String
  completed : Bool
deriving DecidableEq

/-- The contribution fields `calculateProgress` reads. -/
structure ProgressContribution where
  id : String
  amount : ℚ
deriving DecidableEq

/-- The goal fields `calculateProgress` reads and writes, with exact rational
numerics. -/
structure ProgressGoal where
  id : String
  title : String
  financialTarget : Option ℚ
  currentAmount : Option ℚ
  progressPercentage : ℚ
  status : GoalStatus
  tasks : Option (List ProgressTask)
  contributions : Option (List ProgressContribution)
deriving DecidableEq

/-- `Number(x.toFixed(2))`: round to two decimals. -/
def round2 (q : ℚ) : ℚ := (round (q * 100) : ℚ) / 100

/-- `(goal.contributions || []).reduce((acc, c) => acc + c.amount, 0)`. -/
def contributionsTotal (g : ProgressGoal) : ℚ :=
  (g.contributions.getD []).foldl (fun acc c => acc + c.amount) 0

/-- The tail of `calculateProgress`: write `progressPercentage` and derive
`status` from it. -/
def setProgress (g : ProgressGoal) (p : ℚ) : ProgressGoal :=
  { g with progressPercentage := p,
           status := if p = 100 then .Completed
                     else if 0 < p then .InProgress
                     else .NotStarted }

/-- The `else if (tasks && tasks.length > 0)` branch of `calculateProgress`,
also covering the final `else progress = 0`. -/
def calculateTaskProgress (g : ProgressGoal) : ProgressGoal :=
  let tasks := g.tasks.getD []
  if tasks.length > 0 then
    let completed := (tasks.filter (·.completed)).length
    setProgress g ((round ((completed : ℚ) / (tasks.length : ℚ) * 100) : ℤ) : ℚ)
  else setProgress g 0

/-- GoalsSystem `calculateProgress` (BudgetDashboard.tsx lines 343-365): the
outer `if (updatedGoal.financialTarget)` is JavaScript truthiness, so a
financial target of 0 (like an absent one) falls through to the task branch. -/
def calculateProgress (g : ProgressGoal) : ProgressGoal :=
  match g.financialTarget with
  | some target =>
    if target ≠ 0 then
      let total := contributionsTotal g
      let g1 := { g with currentAmount := some total }
      let progress := if 0 < target then min 100 (round2 (total / target * 100)) else 0
      setProgress g1 progress
    else calculateTaskProgress g
  | none => calculateTaskProgress g

/-! ## JSON serialization (the `JSON.stringify` signature)

The engine fingerprints a snapshot with `JSON.stringify(state)`.  The model
serializes the data model char-for-char: object keys in the declaration order
of types.ts, absent optional properties omitted (as `JSON.stringify` omits
`undefined` properties), strings quoted with `"`, `\\` and the common control
characters escaped and all other characters verbatim. -/

/-- The `«{»` character (0x7b). -/
def lbrace : Char := Char.ofNat 123

/-- The `«}»` character (0x7d). -/
def rbrace : Char := Char.ofNat 125

/-- JSON escape of one character. -/
def escapeChar (c : Char) : List Char :=
  if c = '"' then ['\\', '"']
  else if c = '\\' then ['\\', '\\']
  else if c = '\n' then ['\\', 'n']
  else if c = '\t' then ['\\', 't']
  else if c = '\r' then ['\\', 'r']
  else [c]

/-- JSON escape of a character list. -/
def escapeChars : List Char → List Char
  | [] => []
  | c :: rest => escapeChar c ++ escapeChars rest

/-- JSON string literal. -/
def jsonStr (s : String) : List Char := '"' :: (escapeChars s.data ++ ['"'])

/-- JSON number for the integer numerics of the document model. -/
def jsonInt (n : Int) : List Char :=
  match n with
  | .ofNat m => natChars m
  | .negSucc m => '-' :: natChars (m + 1)

/-- JSON boolean. -/
def jsonBool (b : Bool) : List Char :=
  if b then ['t', 'r', 'u', 'e'] else ['f', 'a', 'l', 's', 'e']

/-- The serialized form of `ActivityCost`. -/
def activityCostStr : ActivityCost → String
  | .Free => "Free"
  | .Paid => "Paid"

/-- The serialized form of `EnergyLevel`. -/
def energyLevelStr : EnergyLevel → String
  | .Low => "Low"
  | .Medium => "Medium"
  | .High => "High"

/-- The serialized form of `'Indoor' | 'Outdoor'`. -/
def indoorOutdoorStr : IndoorOutdoor → String
  | .Indoor => "Indoor"
  | .Outdoor => "Outdoor"

/-- The serialized form of `Category`. -/
def categoryStr : Category → String
  | .Financial => "Financial"
  | .Health => "Health"
  | .Travel => "Travel"
  | .Relationship => "Relationship"
  | .Career => "Career"
  | .Adventure => "Adventure"
  | .Creative => "Creative"
  | .Relaxing => "Relaxing"
  | .Growth => "Growth"

/-- The serialized form of `GoalStatus`. -/
def goalStatusStr : GoalStatus → String
  | .NotStarted => "Not Started"
  | .InProgress => "In Progress"
  | .Completed => "Completed"

/-- The serialized form of `ActivityScope`. -/
def activityScopeStr : ActivityScope → String
  | .Shared => "Shared"
  | .Individual => "Individual"

/-- The serialized form of `Recurrence`. -/
def recurrenceStr : Recurrence → String
  | .None => "None"
  | .Weekly => "Weekly"
  | .Monthly => "Monthly"
  | .Yearly => "Yearly"

/-- `"key":` for the first property of an object. -/
def firstKey (key : String) : List Char := '"' :: (key.data ++ ['"', ':'])

/-- `,"key":` for a subsequent property. -/
def nextKey (key : String) : List Char := ',' :: firstKey key

/-- A subsequent optional property: omitted when absent. -/
def optField (key : String) (f : α → List Char) : Option α → List Char
  | none => []
  | some v => nextKey key ++ f v

/-- JSON array items followed by the closing bracket. -/
def jsonArrayItems (f : α → List Char) : List α → List Char
  | [] => [']']
  | [x] => f x ++ [']']
  | x :: y :: xs => f x ++ (',' :: jsonArrayItems f (y :: xs))

/-- JSON array. -/
def jsonArray (f : α → List Char) (l : List α) : List Char :=
  '[' :: jsonArrayItems f l

/-- `JSON.stringify` of a `User`. -/
def jsonUser (u : User) : List Char :=
  (lbrace :: firstKey "id") ++ (jsonStr u.id ++
      (nextKey "name" ++ (jsonStr u.name ++
      (nextKey "avatar" ++ (jsonStr u.avatar ++
      [rbrace])))))

/-- `JSON.stringify` of an `Activity`. -/
def jsonActivity (a : Activity) : List Char :=
  (lbrace :: firstKey "id") ++ (jsonStr a.id ++
      (nextKey "name" ++ (jsonStr a.name ++
      (nextKey "category" ++ (jsonStr (activityCostStr a.category) ++
      (nextKey "estimatedCost" ++ (jsonInt a.estimatedCost ++
      (nextKey "duration" ++ (jsonStr a.duration ++
      (nextKey "energyLevel" ++ (jsonStr (energyLevelStr a.energyLevel) ++
      (nextKey "indoorOutdoor" ++ (jsonStr (indoorOutdoorStr a.indoorOutdoor) ++
      (nextKey "type" ++ (jsonStr (categoryStr a.type) ++
      (nextKey "notes" ++ (jsonStr a.notes ++
      (nextKey "scope" ++ (jsonStr (activityScopeStr a.scope) ++
      (optField "targetUserId" jsonStr a.targetUserId ++
      [rbrace]))))))))))))))))))))

/-- `JSON.stringify` of a `CalendarEvent`. -/
def jsonEvent (e : CalendarEvent) : List Char :=
  (lbrace :: firstKey "id") ++ (jsonStr e.id ++
      (nextKey "date" ++ (jsonStr e.date ++
      (nextKey "startTime" ++ (jsonStr e.startTime ++
      (nextKey "endTime" ++ (jsonStr e.endTime ++
      (optField "recurrence" (fun r => jsonStr (recurrenceStr r)) e.recurrence ++
      (optField "activityId" jsonStr e.activityId ++
      (optField "customName" jsonStr e.customName ++
      (nextKey "category" ++ (jsonStr (activityCostStr e.category) ++
      (nextKey "estimatedCost" ++ (jsonInt e.estimatedCost ++
      (optField "actualCost" jsonInt e.actualCost ++
      (nextKey "duration" ++ (jsonStr e.duration ++
      (nextKey "notes" ++ (jsonStr e.notes ++
      (nextKey "createdBy" ++ (jsonStr e.createdBy ++
      (nextKey "lastModifiedBy" ++ (jsonStr e.lastModifiedBy ++
      (nextKey "scope" ++ (jsonStr (activityScopeStr e.scope) ++
      (optField "targetUserId" jsonStr e.targetUserId ++
      [rbrace]))))))))))))))))))))))))))

/-- `JSON.stringify` of a `GoalTask`. -/
def jsonTask (t : GoalTask) : List Char :=
  (lbrace :: firstKey "id") ++ (jsonStr t.id ++
      (nextKey "text" ++ (jsonStr t.text ++
      (nextKey "completed" ++ (jsonBool t.completed ++
      (optField "dueDate" jsonStr t.dueDate ++
      (optField "dueTime" jsonStr t.dueTime ++
      (optField "startTime" jsonStr t.startTime ++
      (optField "endTime" jsonStr t.endTime ++
      [rbrace])))))))))

/-- `JSON.stringify` of a `GoalContribution`. -/
def jsonContribution (c : GoalContribution) : List Char :=
  (lbrace :: firstKey "id") ++ (jsonStr c.id ++
      (nextKey "amount" ++ (jsonInt c.amount ++
      (nextKey "date" ++ (jsonStr c.date ++
      (nextKey "userId" ++ (jsonStr c.userId ++
      (nextKey "userName" ++ (jsonStr c.userName ++
      [rbrace])))))))))

/-- `JSON.stringify` of a `Goal`. -/
def jsonGoal (g : Goal) : List Char :=
  (lbrace :: firstKey "id") ++ (jsonStr g.id ++
      (optField "userId" jsonStr g.userId ++
      (nextKey "title" ++ (jsonStr g.title ++
      (nextKey "description" ++ (jsonStr g.description ++
      (nextKey "category" ++ (jsonStr (categoryStr g.category) ++
      (nextKey "targetDate" ++ (jsonStr g.targetDate ++
      (optField "targetTime" jsonStr g.targetTime ++
      (optField "financialTarget" jsonInt g.financialTarget ++
      (optField "currentAmount" jsonInt g.currentAmount ++
      (nextKey "progressPercentage" ++ (jsonInt g.progressPercentage ++
      (nextKey "status" ++ (jsonStr (goalStatusStr g.status) ++
      (optField "tasks" (jsonArray jsonTask) g.tasks ++
      (optField "contributions" (jsonArray jsonContribution) g.contributions ++
      [rbrace])))))))))))))))))))

/-- `JSON.stringify` of a `BudgetConfig`. -/
def jsonBudget (b : BudgetConfig) : List Char :=
  (lbrace :: firstKey "monthlyLimit") ++ (jsonInt b.monthlyLimit ++
      [rbrace])

/-- `JSON.stringify` of an `ActivityLog`. -/
def jsonLog (l : ActivityLog) : List Char :=
  (lbrace :: firstKey "id") ++ (jsonStr l.id ++
      (nextKey "timestamp" ++ (jsonStr l.timestamp ++
      (nextKey "message" ++ (jsonStr l.message ++
      (nextKey "userName" ++ (jsonStr l.userName ++
      [rbrace])))))))

/-- `JSON.stringify` of the whole `PlannerState` document. -/
def jsonState (s : PlannerState) : List Char :=
  (lbrace :: firstKey "currentUser") ++ (jsonUser s.currentUser ++
      (nextKey "partner" ++ (jsonUser s.partner ++
      (nextKey "activities" ++ (jsonArray jsonActivity s.activities ++
      (nextKey "events" ++ (jsonArray jsonEvent s.events ++
      (nextKey "sharedGoals" ++ (jsonArray jsonGoal s.sharedGoals ++
      (nextKey "individualGoals" ++ (jsonArray jsonGoal s.individualGoals ++
      (nextKey "budget" ++ (jsonBudget s.budget ++
      (nextKey "logs" ++ (jsonArray jsonLog s.logs ++
      [rbrace])))))))))))))))

/-- The snapshot fingerprint `JSON.stringify(state)`. -/
def signature (s : PlannerState) : String := String.mk (jsonState s)

/-! ## Synchronization engine (App.tsx refs and effects) -/

/-- The engine's mutable synchronization state: the ref flags
`hasHydratedFromSupabase`, `isApplyingRemoteState`,
`lastSyncedStateSignature`, the active pairing id and the React `state`. -/
structure SyncEngine where
  hasHydrated : Bool
  isApplyingRemoteState : Bool
  plannerId : Option String
  localState : PlannerState
  lastSyncedStateSignature : String

/-- The realtime payload handler (App.tsx lines 433-459): compare the incoming
fingerprint with `lastSyncedStateSignature`; discard on equality, otherwise
adopt the snapshot, record its fingerprint, and flag the remote application. -/
def handleRealtimePayload (en : SyncEngine) (remote : PlannerState) : SyncEngine :=
  let remoteSignature := signature remote
  if remoteSignature = en.lastSyncedStateSignature then en
  else
    { en with lastSyncedStateSignature := remoteSignature,
              isApplyingRemoteState := true,
              localState := remote }

/-- The `setTimeout(..., 0)` callback that clears `isApplyingRemoteState` after
the remote-applied state has committed. -/
def finishRemoteApplication (en : SyncEngine) : SyncEngine :=
  { en with isApplyingRemoteState := false }

/-- The guards of the save effect (App.tsx lines 471-501): a debounced upsert
is scheduled only when hydrated, not applying a remote snapshot, a pairing is
active, and the current state's fingerprint differs from
`lastSyncedStateSignature`. -/
def saveEffectWouldSchedule (en : SyncEngine) : Bool :=
  en.hasHydrated && !en.isApplyingRemoteState && en.plannerId.isSome &&
    (signature en.localState != en.lastSyncedStateSignature)

/-! ## A decoder for the serialized documents

The decoder below is a left inverse of the serializer on its image.  It exists
only to prove the serializer injective (signature equality coincides with
structural document equality); it is not part of the source program.  Array
parsing carries fuel (one unit per element); every other parser is structural. -/

/-- Consume an expected literal prefix. -/
def expectLit : List Char → List Char → Option (List Char)
  | [], l => some l
  | _ :: _, [] => none
  | k :: ks, c :: cs => if c = k then expectLit ks cs else none

/-- `litDiverges k l` holds when `k` and `l` disagree at some position that
both contain, so that `k` is not a prefix of `l ++ t` for any `t`. -/
def litDiverges : List Char → List Char → Bool
  | [], _ => false
  | _ :: _, [] => false
  | k :: ks, c :: cs => if k = c then litDiverges ks cs else true

/-- Decode one escaped character. -/
def unescapeChar (e : Char) : Option Char :=
  if e = '"' then some '"'
  else if e = '\\' then some '\\'
  else if e = 'n' then some '\n'
  else if e = 't' then some '\t'
  else if e = 'r' then some '\r'
  else none

/-- Decode a string body up to the closing quote. -/
def parseStringBody : List Char → Option (List Char × List Char)
  | [] => none
  | c :: rest =>
    if c = '"' then some ([], rest)
    else if c = '\\' then
      match rest with
      | [] => none
      | e :: rest2 =>
        match unescapeChar e, parseStringBody rest2 with
        | some u, some (s, r) => some (u :: s, r)
        | _, _ => none
    else
      match parseStringBody rest with
      | some (s, r) => some (c :: s, r)
      | none => none

/-- Decode a quoted JSON string. -/
def parseJsonStr (l : List Char) : Option (String × List Char) :=
  match l with
  | c :: rest =>
    if c = '"' then (parseStringBody rest).map (fun p => (String.mk p.1, p.2))
    else none
  | [] => none

/-- Accumulate a maximal run of decimal digits. -/
def parseDigitsAcc : List Char → Nat → Nat × List Char
  | [], acc => (acc, [])
  | c :: rest, acc =>
    if isDigitChar c then parseDigitsAcc rest (acc * 10 + digitVal c)
    else (acc, c :: rest)

/-- The list is empty or starts with a non-digit. -/
def headNonDigit (l : List Char) : Bool :=
  match l with
  | [] => true
  | c :: _ => !isDigitChar c

/-- Decode a natural number (at least one digit). -/
def parseJsonNat (l : List Char) : Option (Nat × List Char) :=
  match l with
  | c :: _ => if isDigitChar c then some (parseDigitsAcc l 0) else none
  | [] => none

/-- Decode an integer. -/
def parseJsonInt (l : List Char) : Option (Int × List Char) :=
  match l with
  | c :: rest =>
    if c = '-' then (parseJsonNat rest).map (fun p => (-(p.1 : Int), p.2))
    else (parseJsonNat l).map (fun p => ((p.1 : Int), p.2))
  | [] => none

/-- Decode a boolean literal. -/
def parseJsonBool (l : List Char) : Option (Bool × List Char) :=
  match expectLit ['t', 'r', 'u', 'e'] l with
  | some r => some (true, r)
  | none =>
    match expectLit ['f', 'a', 'l', 's', 'e'] l with
    | some r => some (false, r)
    | none => none

/-- Decode a serialized enum through its string form. -/
def parseEnum (toE : String → Option α) (l : List Char) : Option (α × List Char) :=
  match parseJsonStr l with
  | some (s, r) =>
    match toE s with
    | some v => some (v, r)
    | none => none
  | none => none

/-- Inverse of `activityCostStr`. -/
def toActivityCost (s : String) : Option ActivityCost :=
  if s = "Free" then some .Free
  else if s = "Paid" then some .Paid
  else none

/-- Inverse of `energyLevelStr`. -/
def toEnergyLevel (s : String) : Option EnergyLevel :=
  if s = "Low" then some .Low
  else if s = "Medium" then some .Medium
  else if s = "High" then some .High
  else none

/-- Inverse of `indoorOutdoorStr`. -/
def toIndoorOutdoor (s : String) : Option IndoorOutdoor :=
  if s = "Indoor" then some .Indoor
  else if s = "Outdoor" then some .Outdoor
  else none

/-- Inverse of `categoryStr`. -/
def toCategory (s : String) : Option Category :=
  if s = "Financial" then some .Financial
  else if s = "Health" then some .Health
  else if s = "Travel" then some .Travel
  else if s = "Relationship" then some .Relationship
  else if s = "Career" then some .Career
  else if s = "Adventure" then some .Adventure
  else if s = "Creative" then some .Creative
  else if s = "Relaxing" then some .Relaxing
  else if s = "Growth" then some .Growth
  else none

/-- Inverse of `goalStatusStr`. -/
def toGoalStatus (s : String) : Option GoalStatus :=
  if s = "Not Started" then some .NotStarted
  else if s = "In Progress" then some .InProgress
  else if s = "Completed" then some .Completed
  else none

/-- Inverse of `activityScopeStr`. -/
def toActivityScope (s : String) : Option ActivityScope :=
  if s = "Shared" then some .Shared
  else if s = "Individual" then some .Individual
  else none

/-- Inverse of `recurrenceStr`. -/
def toRecurrence (s : String) : Option Recurrence :=
  if s = "None" then some .None
  else if s = "Weekly" then some .Weekly
  else if s = "Monthly" then some .Monthly
  else if s = "Yearly" then some .Yearly
  else none

/-- Decode an optional object property: try the key literal, else absent. -/
def parseOptField (key : List Char) (pv : List Char → Option (α × List Char))
    (l : List Char) : Option (Option α × List Char) :=
  match expectLit key l with
  | some l2 => (pv l2).map (fun p => (some p.1, p.2))
  | none => some (none, l)

/-- Decode the items of a non-empty array, fuel per element. -/
def parseArrayItems (pv : List Char → Option (α × List Char)) :
    Nat → List Char → Option (List α × List Char)
  | 0, _ => none
  | fuel + 1, l =>
    match pv l with
    | none => none
    | some (v, r) =>
      match r with
      | ',' :: r2 => (parseArrayItems pv fuel r2).map (fun p => (v :: p.1, p.2))
      | ']' :: r2 => some ([v], r2)
      | _ => none

/-- Decode an array. -/
def parseJsonArray (pv : List Char → Option (α × List Char)) (fuel : Nat)
    (l : List Char) : Option (List α × List Char) :=
  match l with
  | '[' :: r =>
    match r with
    | ']' :: r2 => some ([], r2)
    | _ => parseArrayItems pv fuel r
  | _ => none

/-- Decode a serialized `User`. -/
def parseUser (l : List Char) : Option (User × List Char) :=
  match expectLit (lbrace :: firstKey "id") l with
  | none => none
  | some l =>
  match parseJsonStr l with
  | none => none
  | some (uid, l) =>
  match expectLit (nextKey "name") l with
  | none => none
  | some l =>
  match parseJsonStr l with
  | none => none
  | some (uname, l) =>
  match expectLit (nextKey "avatar") l with
  | none => none
  | some l =>
  match parseJsonStr l with
  | none => none
  | some (uavatar, l) =>
  match expectLit [rbrace] l with
  | none => none
  | some l =>
  some ({ id := uid, name := uname, avatar := uavatar }, l)

/-- Decode a serialized `Activity`. -/
def parseActivity (l : List Char) : Option (Activity × List Char) :=
  match expectLit (lbrace :: firstKey "id") l with
  | none => none
  | some l =>
  match parseJsonStr l with
  | none => none
  | some (aid, l) =>
  match expectLit (nextKey "name") l with
  | none => none
  | some l =>
  match parseJsonStr l with
  | none => none
  | some (aname, l) =>
  match expectLit (nextKey "category") l with
  | none => none
  | some l =>
  match parseEnum toActivityCost l with
  | none => none
  | some (acat, l) =>
  match expectLit (nextKey "estimatedCost") l with
  | none => none
  | some l =>
  match parseJsonInt l with
  | none => none
  | some (aest, l) =>
  match expectLit (nextKey "duration") l with
  | none => none
  | some l =>
  match parseJsonStr l with
  | none => none
  | some (adur, l) =>
  match expectLit (nextKey "energyLevel") l with
  | none => none
  | some l =>
  match parseEnum toEnergyLevel l with
  | none => none
  | some (aenergy, l) =>
  match expectLit (nextKey "indoorOutdoor") l with
  | none => none
  | some l =>
  match parseEnum toIndoorOutdoor l with
  | none => none
  | some (aio, l) =>
  match expectLit (nextKey "type") l with
  | none => none
  | some l =>
  match parseEnum toCategory l with
  | none => none
  | some (atype, l) =>
  match expectLit (nextKey "notes") l with
  | none => none
  | some l =>
  match parseJsonStr l with
  | none => none
  | some (anotes, l) =>
  match expectLit (nextKey "scope") l with
  | none => none
  | some l =>
  match parseEnum toActivityScope l with
  | none => none
  | some (ascope, l) =>
  match parseOptField (nextKey "targetUserId") parseJsonStr l with
  | none => none
  | some (atarget, l) =>
  match expectLit [rbrace] l with
  | none => none
  | some l =>
  some ({ id := aid, name := aname, category := acat, estimatedCost := aest,
          duration := adur, energyLevel := aenergy, indoorOutdoor := aio,
          type := atype, notes := anotes, scope := ascope,
          targetUserId := atarget }, l)

/-- Decode a serialized `CalendarEvent`. -/
def parseEvent (l : List Char) : Option (CalendarEvent × List Char) :=
  match expectLit (lbrace :: firstKey "id") l with
  | none => none
  | some l =>
  match parseJsonStr l with
  | none => none
  | some (eid, l) =>
  match expectLit (nextKey "date") l with
  | none => none
  | some l =>
  match parseJsonStr l with
  | none => none
  | some (edate, l) =>
  match expectLit (nextKey "startTime") l with
  | none => none
  | some l =>
  match parseJsonStr l with
  | none => none
  | some (estart, l) =>
  match expectLit (nextKey "endTime") l with
  | none => none
  | some l =>
  match parseJsonStr l with
  | none => none
  | some (eend, l) =>
  match parseOptField (nextKey "recurrence") (parseEnum toRecurrence) l with
  | none => none
  | some (erec, l) =>
  match parseOptField (nextKey "activityId") parseJsonStr l with
  | none => none
  | some (eact, l) =>
  match parseOptField (nextKey "customName") parseJsonStr l with
  | none => none
  | some (ecustom, l) =>
  match expectLit (nextKey "category") l with
  | none => none
  | some l =>
  match parseEnum toActivityCost l with
  | none => none
  | some (ecat, l) =>
  match expectLit (nextKey "estimatedCost") l with
  | none => none
  | some l =>
  match parseJsonInt l with
  | none => none
  | some (eest, l) =>
  match parseOptField (nextKey "actualCost") parseJsonInt l with
  | none => none
  | some (eactual, l) =>
  match expectLit (nextKey "duration") l with
  | none => none
  | some l =>
  match parseJsonStr l with
  | none => none
  | some (edur, l) =>
  match expectLit (nextKey "notes") l with
  | none => none
  | some l =>
  match parseJsonStr l with
  | none => none
  | some (enotes, l) =>
  match expectLit (nextKey "createdBy") l with
  | none => none
  | some l =>
  match parseJsonStr l with
  | none => none
  | some (ecreated, l) =>
  match expectLit (nextKey "lastModifiedBy") l with
  | none => none
  | some l =>
  match parseJsonStr l with
  | none => none
  | some (emod, l) =>
  match expectLit (nextKey "scope") l with
  | none => none
  | some l =>
  match parseEnum toActivityScope l with
  | none => none
  | some (escope, l) =>
  match parseOptField (nextKey "targetUserId") parseJsonStr l with
  | none => none
  | some (etarget, l) =>
  match expectLit [rbrace] l with
  | none => none
  | some l =>
  some ({ id := eid, date := edate, startTime := estart, endTime := eend,
          recurrence := erec, activityId := eact, customName := ecustom,
          category := ecat, estimatedCost := eest, actualCost := eactual,
          duration := edur, notes := enotes, createdBy := ecreated,
          lastModifiedBy := emod, scope := escope, targetUserId := etarget }, l)

/-- Decode a serialized `GoalTask`. -/
def parseTask (l : List Char) : Option (GoalTask × List Char) :=
  match expectLit (lbrace :: firstKey "id") l with
  | none => none
  | some l =>
  match parseJsonStr l with
  | none => none
  | some (tid, l) =>
  match expectLit (nextKey "text") l with
  | none => none
  | some l =>
  match parseJsonStr l with
  | none => none
  | some (ttext, l) =>
  match expectLit (nextKey "completed") l with
  | none => none
  | some l =>
  match parseJsonBool l with
  | none => none
  | some (tdone, l) =>
  match parseOptField (nextKey "dueDate") parseJsonStr l with
  | none => none
  | some (tdueDate, l) =>
  match parseOptField (nextKey "dueTime") parseJsonStr l with
  | none => none
  | some (tdueTime, l) =>
  match parseOptField (nextKey "startTime") parseJsonStr l with
  | none => none
  | some (tstart, l) =>
  match parseOptField (nextKey "endTime") parseJsonStr l with
  | none => none
  | some (tend, l) =>
  match expectLit [rbrace] l with
  | none => none
  | some l =>
  some ({ id := tid, text := ttext, completed := tdone, dueDate := tdueDate,
          dueTime := tdueTime, startTime := tstart, endTime := tend }, l)

/-- Decode a serialized `GoalContribution`. -/
def parseContribution (l : List Char) : Option (GoalContribution × List Char) :=
  match expectLit (lbrace :: firstKey "id") l with
  | none => none
  | some l =>
  match parseJsonStr l with
  | none => none
  | some (cid, l) =>
  match expectLit (nextKey "amount") l with
  | none => none
  | some l =>
  match parseJsonInt l with
  | none => none
  | some (camount, l) =>
  match expectLit (nextKey "date") l with
  | none => none
  | some l =>
  match parseJsonStr l with
  | none => none
  | some (cdate, l) =>
  match expectLit (nextKey "userId") l with
  | none => none
  | some l =>
  match parseJsonStr l with
  | none => none
  | some (cuser, l) =>
  match expectLit (nextKey "userName") l with
  | none => none
  | some l =>
  match parseJsonStr l with
  | none => none
  | some (cuserName, l) =>
  match expectLit [rbrace] l with
  | none => none
  | some l =>
  some ({ id := cid, amount := camount, date := cdate, userId := cuser,
          userName := cuserName }, l)

/-- Decode a serialized `Goal`; `fuel` bounds the nested arrays' lengths. -/
def parseGoal (fuel : Nat) (l : List Char) : Option (Goal × List Char) :=
  match expectLit (lbrace :: firstKey "id") l with
  | none => none
  | some l =>
  match parseJsonStr l with
  | none => none
  | some (gid, l) =>
  match parseOptField (nextKey "userId") parseJsonStr l with
  | none => none
  | some (guser, l) =>
  match expectLit (nextKey "title") l with
  | none => none
  | some l =>
  match parseJsonStr l with
  | none => none
  | some (gtitle, l) =>
  match expectLit (nextKey "description") l with
  | none => none
  | some l =>
  match parseJsonStr l with
  | none => none
  | some (gdesc, l) =>
  match expectLit (nextKey "category") l with
  | none => none
  | some l =>
  match parseEnum toCategory l with
  | none => none
  | some (gcat, l) =>
  match expectLit (nextKey "targetDate") l with
  | none => none
  | some l =>
  match parseJsonStr l with
  | none => none
  | some (gdate, l) =>
  match parseOptField (nextKey "targetTime") parseJsonStr l with
  | none => none
  | some (gtime, l) =>
  match parseOptField (nextKey "financialTarget") parseJsonInt l with
  | none => none
  | some (gfin, l) =>
  match parseOptField (nextKey "currentAmount") parseJsonInt l with
  | none => none
  | some (gcur, l) =>
  match expectLit (nextKey "progressPercentage") l with
  | none => none
  | some l =>
  match parseJsonInt l with
  | none => none
  | some (gprog, l) =>
  match expectLit (nextKey "status") l with
  | none => none
  | some l =>
  match parseEnum toGoalStatus l with
  | none => none
  | some (gstatus, l) =>
  match parseOptField (nextKey "tasks") (parseJsonArray parseTask fuel) l with
  | none => none
  | some (gtasks, l) =>
  match parseOptField (nextKey "contributions") (parseJsonArray parseContribution fuel) l with
  | none => none
  | some (gcontribs, l) =>
  match expectLit [rbrace] l with
  | none => none
  | some l =>
  some ({ id := gid, userId := guser, title := gtitle, description := gdesc,
          category := gcat, targetDate := gdate, targetTime := gtime,
          financialTarget := gfin, currentAmount := gcur,
          progressPercentage := gprog, status := gstatus, tasks := gtasks,
          contributions := gcontribs }, l)

/-- Decode a serialized `BudgetConfig`. -/
def parseBudget (l : List Char) : Option (BudgetConfig × List Char) :=
  match expectLit (lbrace :: firstKey "monthlyLimit") l with
  | none => none
  | some l =>
  match parseJsonInt l with
  | none => none
  | some (blimit, l) =>
  match expectLit [rbrace] l with
  | none => none
  | some l =>
  some ({ monthlyLimit := blimit }, l)

/-- Decode a serialized `ActivityLog`. -/
def parseLog (l : List Char) : Option (ActivityLog × List Char) :=
  match expectLit (lbrace :: firstKey "id") l with
  | none => none
  | some l =>
  match parseJsonStr l with
  | none => none
  | some (lid, l) =>
  match expectLit (nextKey "timestamp") l with
  | none => none
  | some l =>
  match parseJsonStr l with
  | none => none
  | some (lts, l) =>
  match expectLit (nextKey "message") l with
  | none => none
  | some l =>
  match parseJsonStr l with
  | none => none
  | some (lmsg, l) =>
  match expectLit (nextKey "userName") l with
  | none => none
  | some l =>
  match parseJsonStr l with
  | none => none
  | some (luser, l) =>
  match expectLit [rbrace] l with
  | none => none
  | some l =>
  some ({ id := lid, timestamp := lts, message := lmsg, userName := luser }, l)

/-- Decode a serialized `PlannerState`; `fuel` bounds every array length. -/
def parseState (fuel : Nat) (l : List Char) : Option (PlannerState × List Char) :=
  match expectLit (lbrace :: firstKey "currentUser") l with
  | none => none
  | some l =>
  match parseUser l with
  | none => none
  | some (scur, l) =>
  match expectLit (nextKey "partner") l with
  | none => none
  | some l =>
  match parseUser l with
  | none => none
  | some (spart, l) =>
  match expectLit (nextKey "activities") l with
  | none => none
  | some l =>
  match parseJsonArray parseActivity fuel l with
  | none => none
  | some (sacts, l) =>
  match expectLit (nextKey "events") l with
  | none => none
  | some l =>
  match parseJsonArray parseEvent fuel l with
  | none => none
  | some (sevents, l) =>
  match expectLit (nextKey "sharedGoals") l with
  | none => none
  | some l =>
  match parseJsonArray (parseGoal fuel) fuel l with
  | none => none
  | some (sshared, l) =>
  match expectLit (nextKey "individualGoals") l with
  | none => none
  | some l =>
  match parseJsonArray (parseGoal fuel) fuel l with
  | none => none
  | some (sind, l) =>
  match expectLit (nextKey "budget") l with
  | none => none
  | some l =>
  match parseBudget l with
  | none => none
  | some (sbudget, l) =>
  match expectLit (nextKey "logs") l with
  | none => none
  | some l =>
  match parseJsonArray parseLog fuel l with
  | none => none
  | some (slogs, l) =>
  match expectLit [rbrace] l with
  | none => none
  | some l =>
  some ({ currentUser := scur, partner := spart, activities := sacts,
          events := sevents, sharedGoals := sshared, individualGoals := sind,
          budget := sbudget, logs := slogs }, l)

/-- The nested array lengths of a goal. -/
def goalInnerSize (g : Goal) : Nat :=
  (g.tasks.getD []).length + (g.contributions.getD []).length

/-- A fuel bound dominating every array length inside a document. -/
def stateFuel (s : PlannerState) : Nat :=
  s.activities.length + s.events.length + s.sharedGoals.length +
    s.individualGoals.length + s.logs.length +
    (s.sharedGoals.map goalInnerSize).sum +
    (s.individualGoals.map goalInnerSize).sum

/-! ## Statement-level derived definitions -/

/-- The per-event amount the implemented fold actually adds to `totalActual`:
`actualCost` when present and nonzero, otherwise `estimatedCost`. -/
def actualOrEstimate (e : CalendarEvent) : Int :=
  match e.actualCost with
  | some a => if a ≠ 0 then a else e.estimatedCost
  | none => e.estimatedCost

/-- The spec's formula `totalActual = Σ(actualCost ?? estimatedCost)` taken at
its word: `??` is nullish coalescing, so a present `actualCost` of 0
contributes 0.  Stated from the spec for comparison with the implemented
`totalActual`. -/
def specTotalActualNullish (evts : List CalendarEvent) : Int :=
  (evts.map (fun e =>
    match e.actualCost with
    | some a => a
    | none => e.estimatedCost)).sum

/-- Stated from the spec for comparison: the spec's financial progress
formula `round2(min(100, 100 * sum(contributions.amount) / financialTarget))`. -/
def specFinancialProgress (total target : ℚ) : ℚ :=
  round2 (min 100 (100 * total / target))

/-- Stated from the spec for comparison: the spec's task progress formula
`round(100 * completedCount / totalCount)`. -/
def specTaskProgress (completed totalCount : ℚ) : ℚ :=
  ((round (100 * completed / totalCount) : ℤ) : ℚ)

/-- The week bucket the dashboard computes for an event: `none` when the date
does not parse. -/
def bucketOf (e : CalendarEvent) : Option Nat :=
  (parseDateKeyChars e.date.data).map getWeekOfMonth

/-- Total spend of the events assigned to week bucket `k`. -/
def bucketSum (evts : List CalendarEvent) (k : Nat) : Int :=
  ((evts.filter (fun e => bucketOf e == some k)).map spendOf).sum

/-- App.tsx `buildInitialPlannerState`: the seeded document of a fresh pairing. -/
def buildInitialPlannerState (currentUser partner : User) : PlannerState :=
  { currentUser := currentUser, partner := partner, activities := [],
    events := [], sharedGoals := [], individualGoals := [],
    budget := { monthlyLimit := 2000 }, logs := [] }

/-! ## Concrete sample values used to evaluate the definitions -/

/-- A sample member. -/
def sampleUser1 : User :=
  { id := "user-1", name := "You", avatar := "https://picsum.photos/seed/default-avatar/100/100" }

/-- The sample partner. -/
def sampleUser2 : User :=
  { id := "user-2", name := "Partner", avatar := "https://picsum.photos/seed/default-avatar/100/100" }

/-- The seeded document for the sample pairing. -/
def sampleState : PlannerState := buildInitialPlannerState sampleUser1 sampleUser2

/-- A sample event template (all sample events below vary it). -/
def baseSampleEvent : CalendarEvent :=
  { id := "ev1", date := "2024-01-01", startTime := "09:00", endTime := "10:00",
    recurrence := some .None, activityId := none, customName := some "Dinner",
    category := .Paid, estimatedCost := 50, actualCost := none,
    duration := "1 hour", notes := "", createdBy := "You",
    lastModifiedBy := "You", scope := .Shared, targetUserId := none }

/-- An event whose `actualCost` is present but zero. -/
def eventZeroActual : CalendarEvent :=
  { baseSampleEvent with actualCost := some 0, estimatedCost := 50 }

/-- An event on 2022-01-31; January 2022 starts on a Saturday, so its week
bucket is `ceil((31 + 6) / 7) = 6`. -/
def eventWeekSix : CalendarEvent :=
  { baseSampleEvent with date := "2022-01-31", estimatedCost := 40 }

/-- A Monthly template anchored to the 31st. -/
def monthly31Event : CalendarEvent :=
  { baseSampleEvent with date := "2024-01-31", recurrence := some .Monthly }

/-- A Yearly template anchored to a leap day. -/
def feb29Event : CalendarEvent :=
  { baseSampleEvent with date := "2024-02-29", recurrence := some .Yearly }

/-- A Weekly display event (stored event lifted into the calendar view). -/
def weeklyDisplayEvent : DisplayEvent :=
  { id := "ev1", date := "2024-01-01", startTime := "09:00", endTime := "10:00",
    recurrence := some .Weekly, activityId := none, customName := some "Gym",
    category := .Free, estimatedCost := 0, actualCost := none,
    duration := "1 hour", notes := "", createdBy := "You",
    lastModifiedBy := "You", scope := .Shared, targetUserId := none,
    isGoalDerived := false, isBirthdayDerived := false,
    recurrenceSourceId := none }

/-- A financial goal with target 1000 and contributions 100 and 150. -/
def financialSampleGoal : ProgressGoal :=
  { id := "g1", title := "Save", financialTarget := some 1000,
    currentAmount := some 0, progressPercentage := 0, status := .NotStarted,
    tasks := none,
    contributions := some [{ id := "c1", amount := 100 }, { id := "c2", amount := 150 }] }

/-- A task goal with 3 of 3 tasks completed. -/
def taskSampleGoal : ProgressGoal :=
  { id := "g2", title := "Trip", financialTarget := none,
    currentAmount := none, progressPercentage := 0, status := .NotStarted,
    tasks := some [{ id := "t1", text := "a", completed := true },
                   { id := "t2", text := "b", completed := true },
                   { id := "t3", text := "c", completed := true }],
    contributions := none }

/-- A goal whose financial target is 0 but which carries completed tasks. -/
def zeroTargetGoal : ProgressGoal :=
  { taskSampleGoal with id := "g3", financialTarget := some 0 }

/-- A financial goal with a negative target. -/
def negTargetGoal : ProgressGoal :=
  { financialSampleGoal with id := "g5", financialTarget := some (-50) }

/-- A financial goal with a negative contribution. -/
def negContributionGoal : ProgressGoal :=
  { id := "g4", title := "Fund", financialTarget := some 1000,
    currentAmount := some 0, progressPercentage := 0, status := .NotStarted,
    tasks := none, contributions := some [{ id := "c3", amount := -100 }] }

/-- A sample activity to add and delete. -/
def sampleActivity : Activity :=
  { id := "act1", name := "Picnic", category := .Free, estimatedCost := 0,
    duration := "2 hours", energyLevel := .Low, indoorOutdoor := .Outdoor,
    type := .Relaxing, notes := "", scope := .Shared, targetUserId := none }

/-- A synchronized engine state for the sample pairing. -/
def sampleEngine : SyncEngine :=
  { hasHydrated := true, isApplyingRemoteState := false,
    plannerId := some "planner-1", localState := sampleState,
    lastSyncedStateSignature := signature sampleState }

/-- A remote snapshot that differs from the sample engine's state. -/
def sampleRemoteState : PlannerState :=
  { sampleState with events := [baseSampleEvent] }

/-! # Theorems

First the generic decoding lemmas, leading to injectivity of the serialized
fingerprint; then the lemmas of the individual subsystems; finally the claim
theorems. -/

theorem expectLit_append (k t : List Char) : expectLit k (k ++ t) = some t := by
  induction k with
  | nil => rfl
  | cons c cs ih => simp [expectLit, ih]

theorem expectLit_div (k l : List Char) (h : litDiverges k l = true) (t : List Char) :
    expectLit k (l ++ t) = none := by
  induction k generalizing l with
  | nil => simp [litDiverges] at h
  | cons c cs ih =>
    match l with
    | [] => simp [litDiverges] at h
    | x :: xs =>
      simp only [litDiverges] at h
      by_cases hx : c = x
      · subst hx
        simp only [if_pos rfl] at h
        simpa [expectLit] using ih xs h
      · simp [expectLit, Ne.symm hx]

theorem parseStringBody_escape (cs rest : List Char) :
    parseStringBody (escapeChars cs ++ ('"' :: rest)) = some (cs, rest) := by
  induction cs with
  | nil =>
    show parseStringBody ('"' :: rest) = some ([], rest)
    unfold parseStringBody
    simp
  | cons c cf ih =>
    simp only [escapeChars, List.append_assoc]
    by_cases h1 : c = '"'
    · subst h1
      unfold escapeChar
      simp only [if_pos rfl, List.cons_append, List.nil_append]
      unfold parseStringBody unescapeChar
      simp [ih]
    · by_cases h2 : c = '\\'
      · subst h2
        unfold escapeChar
        simp only [if_neg (by decide : ¬('\\' = '"')), if_pos rfl, List.cons_append,
          List.nil_append]
        unfold parseStringBody unescapeChar
        simp [ih]
      · by_cases h3 : c = '\n'
        · subst h3
          unfold escapeChar
          simp only [if_neg (by decide : ¬('\n' = '"')), if_neg (by decide : ¬('\n' = '\\')),
            if_pos rfl, List.cons_append, List.nil_append]
          unfold parseStringBody unescapeChar
          simp [ih]
        · by_cases h4 : c = '\t'
          · subst h4
            unfold escapeChar
            simp only [if_neg (by decide : ¬('\t' = '"')), if_neg (by decide : ¬('\t' = '\\')),
              if_neg (by decide : ¬('\t' = '\n')), if_pos rfl, List.cons_append,
              List.nil_append]
            unfold parseStringBody unescapeChar
            simp [ih]
          · by_cases h5 : c = '\r'
            · subst h5
              unfold escapeChar
              simp only [if_neg (by decide : ¬('\x0d' = '"')),
                if_neg (by decide : ¬('\x0d' = '\\')), if_neg (by decide : ¬('\x0d' = '\n')),
                if_neg (by decide : ¬('\x0d' = '\t')), if_pos rfl, List.cons_append,
                List.nil_append]
              unfold parseStringBody unescapeChar
              simp [ih]
            · unfold escapeChar
              simp only [if_neg h1, if_neg h2, if_neg h3, if_neg h4, if_neg h5,
                List.cons_append, List.nil_append]
              unfold parseStringBody
              simp [h1, h2, ih]

theorem parseJsonStr_rt (s : String) (t : List Char) :
    parseJsonStr (jsonStr s ++ t) = some (s, t) := by
  show parseJsonStr ('"' :: (escapeChars s.data ++ ['"']) ++ t) = some (s, t)
  unfold parseJsonStr
  simp [parseStringBody_escape]

theorem digitChar_isDigit (n : Nat) (h : n < 10) : isDigitChar (digitChar n) = true := by
  interval_cases n <;> decide

theorem digitVal_digitChar (n : Nat) (h : n < 10) : digitVal (digitChar n) = n := by
  interval_cases n <;> decide

theorem natCharsGo_succ (fuel n : Nat) :
    natCharsGo (fuel + 1) n =
      if n < 10 then [digitChar n]
      else natCharsGo fuel (n / 10) ++ [digitChar (n % 10)] := rfl

theorem natCharsGo_head (fuel n : Nat) (h : 0 < fuel) :
    ∃ c t, natCharsGo fuel n = c :: t ∧ isDigitChar c = true := by
  induction fuel generalizing n with
  | zero => omega
  | succ f ih =>
    by_cases hn : n < 10
    · exact ⟨digitChar n, [], by rw [natCharsGo_succ, if_pos hn], digitChar_isDigit n hn⟩
    · rcases f with _ | f2
      · exact ⟨digitChar (n % 10), [], by rw [natCharsGo_succ, if_neg hn]; rfl,
          digitChar_isDigit _ (Nat.mod_lt _ (by omega))⟩
      · obtain ⟨c, t, hct, hd⟩ := ih (n / 10) (Nat.succ_pos _)
        exact ⟨c, t ++ [digitChar (n % 10)],
          by rw [natCharsGo_succ, if_neg hn, hct]; rfl, hd⟩

theorem parseDigitsAcc_stop (rest : List Char) (acc : Nat) (h : headNonDigit rest = true) :
    parseDigitsAcc rest acc = (acc, rest) := by
  cases rest with
  | nil => rfl
  | cons c t =>
    simp only [headNonDigit, Bool.not_eq_true'] at h
    simp [parseDigitsAcc, h]

theorem parseDigitsAcc_go (fuel : Nat) : ∀ (n acc : Nat) (rest : List Char), n < 10 ^ fuel →
    parseDigitsAcc (natCharsGo fuel n ++ rest) acc =
      parseDigitsAcc rest (acc * 10 ^ (natCharsGo fuel n).length + n) := by
  induction fuel with
  | zero =>
    intro n acc rest h
    have hn : n = 0 := by simpa using h
    subst hn
    simp [natCharsGo]
  | succ f ih =>
    intro n acc rest h
    by_cases hn : n < 10
    · simp only [natCharsGo, if_pos hn, List.cons_append, List.nil_append,
        List.length_cons, List.length_nil]
      simp [parseDigitsAcc, digitChar_isDigit n hn, digitVal_digitChar n hn]
    · have hd : n / 10 < 10 ^ f := by
        rw [Nat.div_lt_iff_lt_mul (by omega)]
        calc n < 10 ^ (f + 1) := h
        _ = 10 ^ f * 10 := by ring
      simp only [natCharsGo, if_neg hn, List.append_assoc]
      rw [ih (n / 10) acc ([digitChar (n % 10)] ++ rest) hd]
      have hm : n % 10 < 10 := Nat.mod_lt _ (by omega)
      simp only [List.singleton_append]
      rw [show parseDigitsAcc (digitChar (n % 10) :: rest)
            (acc * 10 ^ (natCharsGo f (n / 10)).length + n / 10) = _ from rfl]
      simp only [parseDigitsAcc, digitChar_isDigit _ hm, if_pos, digitVal_digitChar _ hm]
      congr 1
      simp only [List.length_append, List.length_cons, List.length_nil, List.length_singleton]
      have := Nat.div_add_mod n 10
      rw [pow_succ]
      ring_nf
      omega

theorem parseJsonNat_at (n : Nat) (rest : List Char) (h : headNonDigit rest = true) :
    parseJsonNat (natChars n ++ rest) = some (n, rest) := by
  obtain ⟨c, t, hct, hd⟩ := natCharsGo_head (n + 1) n (Nat.succ_pos n)
  have hb : n < 10 ^ (n + 1) :=
    lt_of_lt_of_le (Nat.lt_pow_self (by norm_num) n)
      (Nat.pow_le_pow_right (by norm_num) (Nat.le_succ n))
  have hgo := parseDigitsAcc_go (n + 1) n 0 rest hb
  rw [parseDigitsAcc_stop rest _ h] at hgo
  show parseJsonNat (natCharsGo (n + 1) n ++ rest) = some (n, rest)
  rw [hct] at hgo ⊢
  simp only [List.cons_append] at hgo ⊢
  unfold parseJsonNat
  simp only [hd, if_pos, hgo]
  simp

theorem parseJsonInt_at (m : Int) (rest : List Char) (h : headNonDigit rest = true) :
    parseJsonInt (jsonInt m ++ rest) = some (m, rest) := by
  cases m with
  | ofNat k =>
    obtain ⟨c, t, hct, hd⟩ := natCharsGo_head (k + 1) k (Nat.succ_pos k)
    have hcd : ¬(c = '-') := by
      intro hc
      rw [hc] at hd
      exact absurd hd (by decide)
    have hnat := parseJsonNat_at k rest h
    show parseJsonInt (natChars k ++ rest) = some ((k : Int), rest)
    rw [natChars, hct] at hnat ⊢
    simp only [List.cons_append] at hnat ⊢
    unfold parseJsonInt
    simp [hcd, hnat]
  | negSucc k =>
    have hnat := parseJsonNat_at (k + 1) rest h
    show parseJsonInt (('-' :: natChars (k + 1)) ++ rest) = some (Int.negSucc k, rest)
    simp only [List.cons_append]
    unfold parseJsonInt
    simp only [if_pos rfl, hnat, Option.map_some']
    simp [Int.negSucc_eq]

theorem parseJsonInt_next (m : Int) (k : String) (t : List Char) :
    parseJsonInt (jsonInt m ++ (nextKey k ++ t)) = some (m, nextKey k ++ t) :=
  parseJsonInt_at m _ rfl

theorem parseJsonInt_close (m : Int) (t : List Char) :
    parseJsonInt (jsonInt m ++ ([rbrace] ++ t)) = some (m, [rbrace] ++ t) :=
  parseJsonInt_at m _ rfl

theorem parseJsonBool_rt (b : Bool) (t : List Char) :
    parseJsonBool (jsonBool b ++ t) = some (b, t) := by
  cases b
  · show parseJsonBool (['f', 'a', 'l', 's', 'e'] ++ t) = some (false, t)
    unfold parseJsonBool
    rw [expectLit_div ['t', 'r', 'u', 'e'] ['f', 'a', 'l', 's', 'e'] (by decide) t,
      expectLit_append]
  · show parseJsonBool (['t', 'r', 'u', 'e'] ++ t) = some (true, t)
    unfold parseJsonBool
    rw [expectLit_append]

theorem parseEnum_activityCost (v : ActivityCost) (t : List Char) :
    parseEnum toActivityCost (jsonStr (activityCostStr v) ++ t) = some (v, t) := by
  cases v <;> (unfold parseEnum; rw [parseJsonStr_rt]; rfl)

theorem parseEnum_energyLevel (v : EnergyLevel) (t : List Char) :
    parseEnum toEnergyLevel (jsonStr (energyLevelStr v) ++ t) = some (v, t) := by
  cases v <;> (unfold parseEnum; rw [parseJsonStr_rt]; rfl)

theorem parseEnum_indoorOutdoor (v : IndoorOutdoor) (t : List Char) :
    parseEnum toIndoorOutdoor (jsonStr (indoorOutdoorStr v) ++ t) = some (v, t) := by
  cases v <;> (unfold parseEnum; rw [parseJsonStr_rt]; rfl)

theorem parseEnum_category (v : Category) (t : List Char) :
    parseEnum toCategory (jsonStr (categoryStr v) ++ t) = some (v, t) := by
  cases v <;> (unfold parseEnum; rw [parseJsonStr_rt]; rfl)

theorem parseEnum_goalStatus (v : GoalStatus) (t : List Char) :
    parseEnum toGoalStatus (jsonStr (goalStatusStr v) ++ t) = some (v, t) := by
  cases v <;> (unfold parseEnum; rw [parseJsonStr_rt]; rfl)

theorem parseEnum_activityScope (v : ActivityScope) (t : List Char) :
    parseEnum toActivityScope (jsonStr (activityScopeStr v) ++ t) = some (v, t) := by
  cases v <;> (unfold parseEnum; rw [parseJsonStr_rt]; rfl)

theorem parseEnum_recurrence (v : Recurrence) (t : List Char) :
    parseEnum toRecurrence (jsonStr (recurrenceStr v) ++ t) = some (v, t) := by
  cases v <;> (unfold parseEnum; rw [parseJsonStr_rt]; rfl)

theorem parseOptField_at (key : List Char) (pv : List Char → Option (α × List Char))
    (val t : List Char) (v : α) (hv : pv (val ++ t) = some (v, t)) :
    parseOptField key pv (key ++ (val ++ t)) = some (some v, t) := by
  simp only [parseOptField, expectLit_append, hv, Option.map_some']

theorem parseOptField_str (key : List Char) (s : String) (t : List Char) :
    parseOptField key parseJsonStr (key ++ (jsonStr s ++ t)) = some (some s, t) :=
  parseOptField_at key parseJsonStr (jsonStr s) t s (parseJsonStr_rt s t)

theorem parseOptField_recurrence (key : List Char) (r : Recurrence) (t : List Char) :
    parseOptField key (parseEnum toRecurrence) (key ++ (jsonStr (recurrenceStr r) ++ t)) =
      some (some r, t) :=
  parseOptField_at key (parseEnum toRecurrence) (jsonStr (recurrenceStr r)) t r
    (parseEnum_recurrence r t)

theorem parseOptField_int_next (key : List Char) (m : Int) (k2 : String) (t : List Char) :
    parseOptField key parseJsonInt (key ++ (jsonInt m ++ (nextKey k2 ++ t))) =
      some (some m, nextKey k2 ++ t) :=
  parseOptField_at key parseJsonInt (jsonInt m) (nextKey k2 ++ t) m (parseJsonInt_next m k2 t)

theorem parseOptField_int_close (key : List Char) (m : Int) (t : List Char) :
    parseOptField key parseJsonInt (key ++ (jsonInt m ++ ([rbrace] ++ t))) =
      some (some m, [rbrace] ++ t) :=
  parseOptField_at key parseJsonInt (jsonInt m) ([rbrace] ++ t) m (parseJsonInt_close m t)

theorem parseOptField_miss (key l : List Char) (pv : List Char → Option (α × List Char))
    (h : expectLit key l = none) : parseOptField key pv l = some (none, l) := by
  simp only [parseOptField, h]

/-! Absent optional properties: the decoder's key probe fails on whatever
follows.  One lemma per (optional key, possible follower) pair of the data
model. -/

theorem optMiss_targetUserId_end (pv : List Char → Option (α × List Char)) (t : List Char) :
    parseOptField (nextKey "targetUserId") pv ([rbrace] ++ t) =
      some (none, [rbrace] ++ t) :=
  parseOptField_miss _ _ pv (expectLit_div _ _ (by decide) t)

theorem optMiss_recurrence_activityId (pv : List Char → Option (α × List Char)) (t : List Char) :
    parseOptField (nextKey "recurrence") pv (nextKey "activityId" ++ t) =
      some (none, nextKey "activityId" ++ t) :=
  parseOptField_miss _ _ pv (expectLit_div _ _ (by decide) t)

theorem optMiss_recurrence_customName (pv : List Char → Option (α × List Char)) (t : List Char) :
    parseOptField (nextKey "recurrence") pv (nextKey "customName" ++ t) =
      some (none, nextKey "customName" ++ t) :=
  parseOptField_miss _ _ pv (expectLit_div _ _ (by decide) t)

theorem optMiss_recurrence_category (pv : List Char → Option (α × List Char)) (t : List Char) :
    parseOptField (nextKey "recurrence") pv (nextKey "category" ++ t) =
      some (none, nextKey "category" ++ t) :=
  parseOptField_miss _ _ pv (expectLit_div _ _ (by decide) t)

theorem optMiss_activityId_customName (pv : List Char → Option (α × List Char)) (t : List Char) :
    parseOptField (nextKey "activityId") pv (nextKey "customName" ++ t) =
      some (none, nextKey "customName" ++ t) :=
  parseOptField_miss _ _ pv (expectLit_div _ _ (by decide) t)

theorem optMiss_activityId_category (pv : List Char → Option (α × List Char)) (t : List Char) :
    parseOptField (nextKey "activityId") pv (nextKey "category" ++ t) =
      some (none, nextKey "category" ++ t) :=
  parseOptField_miss _ _ pv (expectLit_div _ _ (by decide) t)

theorem optMiss_customName_category (pv : List Char → Option (α × List Char)) (t : List Char) :
    parseOptField (nextKey "customName") pv (nextKey "category" ++ t) =
      some (none, nextKey "category" ++ t) :=
  parseOptField_miss _ _ pv (expectLit_div _ _ (by decide) t)

theorem optMiss_actualCost_duration (pv : List Char → Option (α × List Char)) (t : List Char) :
    parseOptField (nextKey "actualCost") pv (nextKey "duration" ++ t) =
      some (none, nextKey "duration" ++ t) :=
  parseOptField_miss _ _ pv (expectLit_div _ _ (by decide) t)

theorem optMiss_dueDate_dueTime (pv : List Char → Option (α × List Char)) (t : List Char) :
    parseOptField (nextKey "dueDate") pv (nextKey "dueTime" ++ t) =
      some (none, nextKey "dueTime" ++ t) :=
  parseOptField_miss _ _ pv (expectLit_div _ _ (by decide) t)

theorem optMiss_dueDate_startTime (pv : List Char → Option (α × List Char)) (t : List Char) :
    parseOptField (nextKey "dueDate") pv (nextKey "startTime" ++ t) =
      some (none, nextKey "startTime" ++ t) :=
  parseOptField_miss _ _ pv (expectLit_div _ _ (by decide) t)

theorem optMiss_dueDate_endTime (pv : List Char → Option (α × List Char)) (t : List Char) :
    parseOptField (nextKey "dueDate") pv (nextKey "endTime" ++ t) =
      some (none, nextKey "endTime" ++ t) :=
  parseOptField_miss _ _ pv (expectLit_div _ _ (by decide) t)

theorem optMiss_dueDate_end (pv : List Char → Option (α × List Char)) (t : List Char) :
    parseOptField (nextKey "dueDate") pv ([rbrace] ++ t) =
      some (none, [rbrace] ++ t) :=
  parseOptField_miss _ _ pv (expectLit_div _ _ (by decide) t)

theorem optMiss_dueTime_startTime (pv : List Char → Option (α × List Char)) (t : List Char) :
    parseOptField (nextKey "dueTime") pv (nextKey "startTime" ++ t) =
      some (none, nextKey "startTime" ++ t) :=
  parseOptField_miss _ _ pv (expectLit_div _ _ (by decide) t)

theorem optMiss_dueTime_endTime (pv : List Char → Option (α × List Char)) (t : List Char) :
    parseOptField (nextKey "dueTime") pv (nextKey "endTime" ++ t) =
      some (none, nextKey "endTime" ++ t) :=
  parseOptField_miss _ _ pv (expectLit_div _ _ (by decide) t)

theorem optMiss_dueTime_end (pv : List Char → Option (α × List Char)) (t : List Char) :
    parseOptField (nextKey "dueTime") pv ([rbrace] ++ t) =
      some (none, [rbrace] ++ t) :=
  parseOptField_miss _ _ pv (expectLit_div _ _ (by decide) t)

theorem optMiss_startTime_endTime (pv : List Char → Option (α × List Char)) (t : List Char) :
    parseOptField (nextKey "startTime") pv (nextKey "endTime" ++ t) =
      some (none, nextKey "endTime" ++ t) :=
  parseOptField_miss _ _ pv (expectLit_div _ _ (by decide) t)

theorem optMiss_startTime_end (pv : List Char → Option (α × List Char)) (t : List Char) :
    parseOptField (nextKey "startTime") pv ([rbrace] ++ t) =
      some (none, [rbrace] ++ t) :=
  parseOptField_miss _ _ pv (expectLit_div _ _ (by decide) t)

theorem optMiss_endTime_end (pv : List Char → Option (α × List Char)) (t : List Char) :
    parseOptField (nextKey "endTime") pv ([rbrace] ++ t) =
      some (none, [rbrace] ++ t) :=
  parseOptField_miss _ _ pv (expectLit_div _ _ (by decide) t)

theorem optMiss_userId_title (pv : List Char → Option (α × List Char)) (t : List Char) :
    parseOptField (nextKey "userId") pv (nextKey "title" ++ t) =
      some (none, nextKey "title" ++ t) :=
  parseOptField_miss _ _ pv (expectLit_div _ _ (by decide) t)

theorem optMiss_targetTime_financialTarget (pv : List Char → Option (α × List Char)) (t : List Char) :
    parseOptField (nextKey "targetTime") pv (nextKey "financialTarget" ++ t) =
      some (none, nextKey "financialTarget" ++ t) :=
  parseOptField_miss _ _ pv (expectLit_div _ _ (by decide) t)

theorem optMiss_targetTime_currentAmount (pv : List Char → Option (α × List Char)) (t : List Char) :
    parseOptField (nextKey "targetTime") pv (nextKey "currentAmount" ++ t) =
      some (none, nextKey "currentAmount" ++ t) :=
  parseOptField_miss _ _ pv (expectLit_div _ _ (by decide) t)

theorem optMiss_targetTime_progressPercentage (pv : List Char → Option (α × List Char)) (t : List Char) :
    parseOptField (nextKey "targetTime") pv (nextKey "progressPercentage" ++ t) =
      some (none, nextKey "progressPercentage" ++ t) :=
  parseOptField_miss _ _ pv (expectLit_div _ _ (by decide) t)

theorem optMiss_financialTarget_currentAmount (pv : List Char → Option (α × List Char)) (t : List Char) :
    parseOptField (nextKey "financialTarget") pv (nextKey "currentAmount" ++ t) =
      some (none, nextKey "currentAmount" ++ t) :=
  parseOptField_miss _ _ pv (expectLit_div _ _ (by decide) t)

theorem optMiss_financialTarget_progressPercentage (pv : List Char → Option (α × List Char)) (t : List Char) :
    parseOptField (nextKey "financialTarget") pv (nextKey "progressPercentage" ++ t) =
      some (none, nextKey "progressPercentage" ++ t) :=
  parseOptField_miss _ _ pv (expectLit_div _ _ (by decide) t)

theorem optMiss_currentAmount_progressPercentage (pv : List Char → Option (α × List Char)) (t : List Char) :
    parseOptField (nextKey "currentAmount") pv (nextKey "progressPercentage" ++ t) =
      some (none, nextKey "progressPercentage" ++ t) :=
  parseOptField_miss _ _ pv (expectLit_div _ _ (by decide) t)

theorem optMiss_tasks_contributions (pv : List Char → Option (α × List Char)) (t : List Char) :
    parseOptField (nextKey "tasks") pv (nextKey "contributions" ++ t) =
      some (none, nextKey "contributions" ++ t) :=
  parseOptField_miss _ _ pv (expectLit_div _ _ (by decide) t)

theorem optMiss_tasks_end (pv : List Char → Option (α × List Char)) (t : List Char) :
    parseOptField (nextKey "tasks") pv ([rbrace] ++ t) =
      some (none, [rbrace] ++ t) :=
  parseOptField_miss _ _ pv (expectLit_div _ _ (by decide) t)

theorem optMiss_contributions_end (pv : List Char → Option (α × List Char)) (t : List Char) :
    parseOptField (nextKey "contributions") pv ([rbrace] ++ t) =
      some (none, [rbrace] ++ t) :=
  parseOptField_miss _ _ pv (expectLit_div _ _ (by decide) t)

theorem parseArrayItems_rt (pv : List Char → Option (α × List Char)) (f : α → List Char) :
    ∀ (xs : List α) (x : α) (fuel : Nat) (rest : List Char),
      xs.length < fuel →
      (∀ z ∈ x :: xs, ∀ r, pv (f z ++ r) = some (z, r)) →
      parseArrayItems pv fuel (jsonArrayItems f (x :: xs) ++ rest) = some (x :: xs, rest) := by
  intro xs
  induction xs with
  | nil =>
    intro x fuel rest hf hz
    match fuel, hf with
    | fuel + 1, _ =>
      show parseArrayItems pv (fuel + 1) ((f x ++ [']']) ++ rest) = some ([x], rest)
      rw [List.append_assoc, List.singleton_append]
      unfold parseArrayItems
      rw [hz x (by simp) (']' :: rest)]
      rfl
  | cons y ys ih =>
    intro x fuel rest hf hz
    match fuel, hf with
    | fuel + 1, hf2 =>
      show parseArrayItems pv (fuel + 1)
          ((f x ++ (',' :: jsonArrayItems f (y :: ys))) ++ rest) = some (x :: y :: ys, rest)
      rw [List.append_assoc, List.cons_append]
      unfold parseArrayItems
      rw [hz x (by simp) (',' :: (jsonArrayItems f (y :: ys) ++ rest))]
      have hrec := ih y fuel rest
        (by simp only [List.length_cons] at hf2; omega)
        (fun z hzm r => hz z (by simp [hzm]) r)
      show Option.map (fun p => (x :: p.1, p.2))
          (parseArrayItems pv fuel (jsonArrayItems f (y :: ys) ++ rest)) =
        some (x :: y :: ys, rest)
      rw [hrec]
      rfl

theorem parseJsonArray_rt (pv : List Char → Option (α × List Char)) (f : α → List Char)
    (xs : List α) (fuel : Nat) (rest : List Char)
    (hf : xs.length ≤ fuel)
    (hz : ∀ z ∈ xs, ∀ r, pv (f z ++ r) = some (z, r))
    (hh : ∀ z ∈ xs, ∃ t2, f z = lbrace :: t2) :
    parseJsonArray pv fuel (jsonArray f xs ++ rest) = some (xs, rest) := by
  cases xs with
  | nil => rfl
  | cons x xs2 =>
    obtain ⟨t2, ht⟩ := hh x (by simp)
    show parseJsonArray pv fuel (('[' :: jsonArrayItems f (x :: xs2)) ++ rest) =
      some (x :: xs2, rest)
    rw [List.cons_append]
    have hstart : ∃ u, jsonArrayItems f (x :: xs2) ++ rest = lbrace :: u := by
      cases xs2 with
      | nil =>
        exact ⟨t2 ++ ([']'] ++ rest), by
          show (f x ++ [']']) ++ rest = _
          rw [ht]
          simp⟩
      | cons y ys =>
        exact ⟨t2 ++ (',' :: jsonArrayItems f (y :: ys) ++ rest), by
          show (f x ++ (',' :: jsonArrayItems f (y :: ys))) ++ rest = _
          rw [ht]
          simp⟩
    obtain ⟨u, hu⟩ := hstart
    rw [hu]
    show parseArrayItems pv fuel (lbrace :: u) = some (x :: xs2, rest)
    rw [← hu]
    exact parseArrayItems_rt pv f xs2 x fuel rest
      (by simp only [List.length_cons] at hf; omega) hz

theorem parseUser_rt (u : User) (rest : List Char) :
    parseUser (jsonUser u ++ rest) = some (u, rest) := by
  rcases u with ⟨uid, uname, uavatar⟩
  simp only [parseUser, jsonUser, List.append_assoc, expectLit_append, parseJsonStr_rt]

theorem parseBudget_rt (b : BudgetConfig) (rest : List Char) :
    parseBudget (jsonBudget b ++ rest) = some (b, rest) := by
  rcases b with ⟨blimit⟩
  simp only [parseBudget, jsonBudget, List.append_assoc, expectLit_append, parseJsonInt_close]

theorem parseLog_rt (l : ActivityLog) (rest : List Char) :
    parseLog (jsonLog l ++ rest) = some (l, rest) := by
  rcases l with ⟨lid, lts, lmsg, luser⟩
  simp only [parseLog, jsonLog, List.append_assoc, expectLit_append, parseJsonStr_rt]

theorem parseContribution_rt (c : GoalContribution) (rest : List Char) :
    parseContribution (jsonContribution c ++ rest) = some (c, rest) := by
  rcases c with ⟨cid, camount, cdate, cuser, cuserName⟩
  simp only [parseContribution, jsonContribution, List.append_assoc, expectLit_append,
    parseJsonStr_rt, parseJsonInt_next]

theorem parseActivity_rt (a : Activity) (rest : List Char) :
    parseActivity (jsonActivity a ++ rest) = some (a, rest) := by
  rcases a with ⟨aid, aname, acat, aest, adur, aenergy, aio, atype, anotes, ascope, atarget⟩
  rcases atarget with _ | tv <;>
    simp only [parseActivity, jsonActivity, optField, List.append_assoc, List.nil_append,
      expectLit_append, parseJsonStr_rt, parseEnum_activityCost, parseEnum_energyLevel,
      parseEnum_indoorOutdoor, parseEnum_category, parseEnum_activityScope,
      parseJsonInt_next, parseOptField_str, optMiss_targetUserId_end]

theorem parseTask_rt (t : GoalTask) (rest : List Char) :
    parseTask (jsonTask t ++ rest) = some (t, rest) := by
  rcases t with ⟨tid, ttext, tdone, tdueDate, tdueTime, tstart, tend⟩
  rcases tdueDate with _ | v1 <;> rcases tdueTime with _ | v2 <;>
    rcases tstart with _ | v3 <;> rcases tend with _ | v4 <;>
    simp only [parseTask, jsonTask, optField, List.append_assoc, List.nil_append,
      expectLit_append, parseJsonStr_rt, parseJsonBool_rt, parseOptField_str,
      optMiss_dueDate_dueTime, optMiss_dueDate_startTime, optMiss_dueDate_endTime,
      optMiss_dueDate_end, optMiss_dueTime_startTime, optMiss_dueTime_endTime,
      optMiss_dueTime_end, optMiss_startTime_endTime, optMiss_startTime_end,
      optMiss_endTime_end]

theorem parseEvent_rt (e : CalendarEvent) (rest : List Char) :
    parseEvent (jsonEvent e ++ rest) = some (e, rest) := by
  rcases e with ⟨eid, edate, estart, eend, erec, eact, ecustom, ecat, eest, eactual,
    edur, enotes, ecreated, emod, escope, etarget⟩
  rcases erec with _ | v1 <;> rcases eact with _ | v2 <;> rcases ecustom with _ | v3 <;>
    rcases eactual with _ | v4 <;> rcases etarget with _ | v5 <;>
    simp only [parseEvent, jsonEvent, optField, List.append_assoc, List.nil_append,
      expectLit_append, parseJsonStr_rt, parseEnum_activityCost, parseEnum_activityScope,
      parseJsonInt_next, parseOptField_str, parseOptField_recurrence,
      parseOptField_int_next, optMiss_recurrence_activityId, optMiss_recurrence_customName,
      optMiss_recurrence_category, optMiss_activityId_customName, optMiss_activityId_category,
      optMiss_customName_category, optMiss_actualCost_duration, optMiss_targetUserId_end]

theorem optTasksHit (fuel : Nat) (key : List Char) (ts : List GoalTask) (t : List Char)
    (h : ts.length ≤ fuel) :
    parseOptField key (parseJsonArray parseTask fuel)
      (key ++ (jsonArray jsonTask ts ++ t)) = some (some ts, t) :=
  parseOptField_at key _ _ t ts
    (parseJsonArray_rt parseTask jsonTask ts fuel t h
      (fun z _ r => parseTask_rt z r) (fun z _ => ⟨_, rfl⟩))

theorem optContributionsHit (fuel : Nat) (key : List Char) (cs : List GoalContribution)
    (t : List Char) (h : cs.length ≤ fuel) :
    parseOptField key (parseJsonArray parseContribution fuel)
      (key ++ (jsonArray jsonContribution cs ++ t)) = some (some cs, t) :=
  parseOptField_at key _ _ t cs
    (parseJsonArray_rt parseContribution jsonContribution cs fuel t h
      (fun z _ r => parseContribution_rt z r) (fun z _ => ⟨_, rfl⟩))

theorem parseGoal_rt (fuel : Nat) (g : Goal) (rest : List Char)
    (htasks : (g.tasks.getD []).length ≤ fuel)
    (hcontribs : (g.contributions.getD []).length ≤ fuel) :
    parseGoal fuel (jsonGoal g ++ rest) = some (g, rest) := by
  rcases g with ⟨gid, guser, gtitle, gdesc, gcat, gdate, gtime, gfin, gcur, gprog,
    gstatus, gtasks, gcontribs⟩
  rcases gtasks with _ | ts <;> rcases gcontribs with _ | cs
  case' some.none =>
    have hT : ∀ (key : List Char) (t : List Char),
        parseOptField key (parseJsonArray parseTask fuel)
          (key ++ (jsonArray jsonTask ts ++ t)) = some (some ts, t) :=
      fun key t => optTasksHit fuel key ts t (by simpa using htasks)
  case' none.some =>
    have hC : ∀ (key : List Char) (t : List Char),
        parseOptField key (parseJsonArray parseContribution fuel)
          (key ++ (jsonArray jsonContribution cs ++ t)) = some (some cs, t) :=
      fun key t => optContributionsHit fuel key cs t (by simpa using hcontribs)
  case' some.some =>
    have hT : ∀ (key : List Char) (t : List Char),
        parseOptField key (parseJsonArray parseTask fuel)
          (key ++ (jsonArray jsonTask ts ++ t)) = some (some ts, t) :=
      fun key t => optTasksHit fuel key ts t (by simpa using htasks)
    have hC : ∀ (key : List Char) (t : List Char),
        parseOptField key (parseJsonArray parseContribution fuel)
          (key ++ (jsonArray jsonContribution cs ++ t)) = some (some cs, t) :=
      fun key t => optContributionsHit fuel key cs t (by simpa using hcontribs)
  all_goals
    rcases guser with _ | uv <;> rcases gtime with _ | tv <;> rcases gfin with _ | fv <;>
      rcases gcur with _ | cv <;>
      simp only [parseGoal, jsonGoal, optField, List.append_assoc, List.nil_append,
        expectLit_append, parseJsonStr_rt, parseEnum_category, parseEnum_goalStatus,
        parseJsonInt_next, parseOptField_str, parseOptField_int_next,
        optMiss_userId_title, optMiss_targetTime_financialTarget,
        optMiss_targetTime_currentAmount, optMiss_targetTime_progressPercentage,
        optMiss_financialTarget_currentAmount, optMiss_financialTarget_progressPercentage,
        optMiss_currentAmount_progressPercentage, optMiss_tasks_contributions,
        optMiss_tasks_end, optMiss_contributions_end, *]

theorem parseState_rt (fuel : Nat) (s : PlannerState) (rest : List Char)
    (hacts : s.activities.length ≤ fuel) (hevents : s.events.length ≤ fuel)
    (hshared : s.sharedGoals.length ≤ fuel) (hind : s.individualGoals.length ≤ fuel)
    (hlogs : s.logs.length ≤ fuel)
    (hgoals : ∀ g ∈ s.sharedGoals ++ s.individualGoals,
      (g.tasks.getD []).length ≤ fuel ∧ (g.contributions.getD []).length ≤ fuel) :
    parseState fuel (jsonState s ++ rest) = some (s, rest) := by
  rcases s with ⟨scur, spart, sacts, sevents, sshared, sind, sbudget, slogs⟩
  simp only at hacts hevents hshared hind hlogs hgoals
  have hA : ∀ t, parseJsonArray parseActivity fuel (jsonArray jsonActivity sacts ++ t) =
      some (sacts, t) :=
    fun t => parseJsonArray_rt _ _ _ _ _ hacts
      (fun z _ r => parseActivity_rt z r) (fun z _ => ⟨_, rfl⟩)
  have hE : ∀ t, parseJsonArray parseEvent fuel (jsonArray jsonEvent sevents ++ t) =
      some (sevents, t) :=
    fun t => parseJsonArray_rt _ _ _ _ _ hevents
      (fun z _ r => parseEvent_rt z r) (fun z _ => ⟨_, rfl⟩)
  have hS : ∀ t, parseJsonArray (parseGoal fuel) fuel (jsonArray jsonGoal sshared ++ t) =
      some (sshared, t) :=
    fun t => parseJsonArray_rt _ _ _ _ _ hshared
      (fun z hz r => parseGoal_rt fuel z r
        (hgoals z (List.mem_append_left _ hz)).1 (hgoals z (List.mem_append_left _ hz)).2)
      (fun z _ => ⟨_, rfl⟩)
  have hI : ∀ t, parseJsonArray (parseGoal fuel) fuel (jsonArray jsonGoal sind ++ t) =
      some (sind, t) :=
    fun t => parseJsonArray_rt _ _ _ _ _ hind
      (fun z hz r => parseGoal_rt fuel z r
        (hgoals z (List.mem_append_right _ hz)).1 (hgoals z (List.mem_append_right _ hz)).2)
      (fun z _ => ⟨_, rfl⟩)
  have hL : ∀ t, parseJsonArray parseLog fuel (jsonArray jsonLog slogs ++ t) =
      some (slogs, t) :=
    fun t => parseJsonArray_rt _ _ _ _ _ hlogs
      (fun z _ r => parseLog_rt z r) (fun z _ => ⟨_, rfl⟩)
  simp only [parseState, jsonState, List.append_assoc, expectLit_append,
    parseUser_rt, parseBudget_rt, hA, hE, hS, hI, hL]

theorem stateFuel_spec (s : PlannerState) :
    s.activities.length ≤ stateFuel s ∧ s.events.length ≤ stateFuel s ∧
    s.sharedGoals.length ≤ stateFuel s ∧ s.individualGoals.length ≤ stateFuel s ∧
    s.logs.length ≤ stateFuel s ∧
    ∀ g ∈ s.sharedGoals ++ s.individualGoals,
      (g.tasks.getD []).length ≤ stateFuel s ∧
        (g.contributions.getD []).length ≤ stateFuel s := by
  unfold stateFuel
  refine ⟨by omega, by omega, by omega, by omega, by omega, ?_⟩
  intro g hg
  have h2 : (g.tasks.getD []).length ≤ goalInnerSize g := by unfold goalInnerSize; omega
  have h3 : (g.contributions.getD []).length ≤ goalInnerSize g := by
    unfold goalInnerSize; omega
  rcases List.mem_append.mp hg with h | h
  · have h1 : goalInnerSize g ≤ (s.sharedGoals.map goalInnerSize).sum :=
      List.single_le_sum (fun x _ => Nat.zero_le x) _ (List.mem_map_of_mem _ h)
    constructor <;> omega
  · have h1 : goalInnerSize g ≤ (s.individualGoals.map goalInnerSize).sum :=
      List.single_le_sum (fun x _ => Nat.zero_le x) _ (List.mem_map_of_mem _ h)
    constructor <;> omega

theorem jsonState_injective (a b : PlannerState) (h : jsonState a = jsonState b) :
    a = b := by
  obtain ⟨ha1, ha2, ha3, ha4, ha5, ha6⟩ := stateFuel_spec a
  obtain ⟨hb1, hb2, hb3, hb4, hb5, hb6⟩ := stateFuel_spec b
  have haf : stateFuel a ≤ stateFuel a + stateFuel b := by omega
  have hbf : stateFuel b ≤ stateFuel a + stateFuel b := by omega
  have ra := parseState_rt (stateFuel a + stateFuel b) a []
    (le_trans ha1 haf) (le_trans ha2 haf) (le_trans ha3 haf) (le_trans ha4 haf)
    (le_trans ha5 haf)
    (fun g hg => ⟨le_trans (ha6 g hg).1 haf, le_trans (ha6 g hg).2 haf⟩)
  have rb := parseState_rt (stateFuel a + stateFuel b) b []
    (le_trans hb1 hbf) (le_trans hb2 hbf) (le_trans hb3 hbf) (le_trans hb4 hbf)
    (le_trans hb5 hbf)
    (fun g hg => ⟨le_trans (hb6 g hg).1 hbf, le_trans (hb6 g hg).2 hbf⟩)
  rw [List.append_nil] at ra rb
  rw [h, rb] at ra
  exact (Prod.ext_iff.mp (Option.some.inj ra)).1.symm

theorem signature_injective (a b : PlannerState) (h : signature a = signature b) :
    a = b :=
  jsonState_injective a b (congrArg String.data h)

/-- C2: signature equality is reflexive and deterministic, and two documents
have equal signatures exactly when they are structurally equal under the data
model (lists compared in order); the signature is the JSON serialization of
the document. -/
theorem c2_signature_iff_structural_eq (D1 D2 : PlannerState) :
    signature D1 = signature D1 ∧ (signature D1 = signature D2 ↔ D1 = D2) :=
  ⟨rfl, fun h => signature_injective D1 D2 h, fun h => h ▸ rfl⟩

/-- C1: an incoming realtime snapshot whose fingerprint equals
`lastSyncedStateSignature` is discarded with the engine unchanged; otherwise
it becomes the local state, `lastSyncedStateSignature` becomes its
fingerprint, and no save is scheduled for the remote-applied state — neither
while the remote flag is up nor after the flag resets, because the save
effect skips any state whose fingerprint equals `lastSyncedStateSignature`. -/
theorem c1_realtime_guard (en : SyncEngine) (remote : PlannerState) :
    (signature remote = en.lastSyncedStateSignature →
      handleRealtimePayload en remote = en) ∧
    (signature remote ≠ en.lastSyncedStateSignature →
      (handleRealtimePayload en remote).localState = remote ∧
      (handleRealtimePayload en remote).lastSyncedStateSignature = signature remote ∧
      saveEffectWouldSchedule (handleRealtimePayload en remote) = false ∧
      saveEffectWouldSchedule
        (finishRemoteApplication (handleRealtimePayload en remote)) = false) := by
  constructor
  · intro h
    simp only [handleRealtimePayload, if_pos h]
  · intro h
    simp only [handleRealtimePayload, if_neg h]
    refine ⟨trivial, trivial, ?_, ?_⟩
    · simp [saveEffectWouldSchedule]
    · simp [saveEffectWouldSchedule, finishRemoteApplication]

set_option maxRecDepth 8000 in
/-- C1 witness: the equal-fingerprint branch discards the sample echo, and
after applying a genuinely different snapshot no save is scheduled once the
remote flag has reset. -/
theorem c1_realtime_guard_witness :
    handleRealtimePayload sampleEngine sampleState = sampleEngine ∧
    saveEffectWouldSchedule
      (finishRemoteApplication
        (handleRealtimePayload sampleEngine sampleRemoteState)) = false :=
  ⟨(c1_realtime_guard sampleEngine sampleState).1 rfl,
   ((c1_realtime_guard sampleEngine sampleRemoteState).2 (by decide)).2.2.2⟩

/-- C3: the UI dispatch surface defines add and update operations for both
goal collections but no delete operation, while the goals screen wires its
delete confirmation to the `deleteSharedGoal` / `deleteIndividualGoal`
properties of that surface; event and activity deletes do exist. -/
theorem c3_goal_delete_missing :
    goalsSystemOnDeleteKey true ∉ dispatchSurfaceKeys ∧
    goalsSystemOnDeleteKey false ∉ dispatchSurfaceKeys ∧
    goalsSystemOnDeleteKey true = "deleteSharedGoal" ∧
    goalsSystemOnDeleteKey false = "deleteIndividualGoal" ∧
    "addSharedGoal" ∈ dispatchSurfaceKeys ∧
    "updateSharedGoal" ∈ dispatchSurfaceKeys ∧
    "addIndividualGoal" ∈ dispatchSurfaceKeys ∧
    "updateIndividualGoal" ∈ dispatchSurfaceKeys ∧
    "deleteActivity" ∈ dispatchSurfaceKeys ∧
    "deleteEvent" ∈ dispatchSurfaceKeys := by
  decide

theorem foldl_add_eq_sum {α : Type} (f : α → Int) (l : List α) :
    ∀ acc : Int, l.foldl (fun a e => a + f e) acc = acc + (l.map f).sum := by
  induction l with
  | nil => intro acc; simp
  | cons x xs ih =>
    intro acc
    simp only [List.foldl_cons, List.map_cons, List.sum_cons, ih]
    ring

theorem jsOrInt_zero (a : Int) : jsOrInt a 0 = a := by
  unfold jsOrInt
  split_ifs with h
  · rfl
  · omega

theorem spendOf_eq_actualOrEstimate (e : CalendarEvent) :
    spendOf e = actualOrEstimate e := by
  unfold spendOf actualOrEstimate jsOrOptInt
  cases e.actualCost with
  | none => exact jsOrInt_zero _
  | some a =>
    by_cases h : a ≠ 0
    · simp [h]
    · simp [h, jsOrInt_zero]

/-- C4 (amended): over any expanded event set, the implemented `totalActual`
sums `actualCost` when it is present and nonzero and falls back to
`estimatedCost` otherwise (so an event with `actualCost = 0` contributes its
`estimatedCost`, not 0 — the fold uses JavaScript `||`, not `??`);
`totalEstimated` sums `estimatedCost`, and `remaining` is
`max(0, monthlyLimit - totalActual)`. -/
theorem c4_budget_totals (evts : List CalendarEvent) (limit : Int) :
    totalActual evts = (evts.map actualOrEstimate).sum ∧
    totalEstimated evts = (evts.map (fun e => e.estimatedCost)).sum ∧
    remaining limit evts = max 0 (limit - totalActual evts) := by
  refine ⟨?_, ?_, rfl⟩
  · unfold totalActual
    rw [foldl_add_eq_sum,
      show spendOf = actualOrEstimate from funext spendOf_eq_actualOrEstimate]
    simp
  · unfold totalEstimated
    rw [foldl_add_eq_sum]
    simp [jsOrInt_zero]

/-- C4 counterexample: an event with `actualCost = 0` and `estimatedCost = 50`
contributes 50 to the implemented `totalActual`, while the claim's
`actualCost ?? estimatedCost` formula demands 0. -/
theorem c4_actual_zero_counterexample :
    totalActual [eventZeroActual] = 50 ∧
    specTotalActualNullish [eventZeroActual] = 0 ∧
    totalActual [eventZeroActual] ≠ specTotalActualNullish [eventZeroActual] := by
  decide

theorem activities_add_delete (l : List Activity) (a : Activity)
    (h : a.id ∉ l.map (fun x => x.id)) :
    (l ++ [a]).filter (fun x => x.id ≠ a.id) = l := by
  rw [List.filter_append]
  have h1 : l.filter (fun x => x.id ≠ a.id) = l := by
    apply List.filter_eq_self.mpr
    intro y hy
    simp only [ne_eq, decide_not, Bool.not_eq_true', decide_eq_false_iff_not]
    intro hc
    exact h (hc ▸ List.mem_map_of_mem (fun x => x.id) hy)
  have h2 : List.filter (fun x => x.id ≠ a.id) [a] = [] := by simp
  rw [h1, h2, List.append_nil]

theorem events_add_delete (l : List CalendarEvent) (e : CalendarEvent)
    (h : e.id ∉ l.map (fun x => x.id)) :
    (l ++ [e]).filter (fun x => x.id ≠ e.id) = l := by
  rw [List.filter_append]
  have h1 : l.filter (fun x => x.id ≠ e.id) = l := by
    apply List.filter_eq_self.mpr
    intro y hy
    simp only [ne_eq, decide_not, Bool.not_eq_true', decide_eq_false_iff_not]
    intro hc
    exact h (hc ▸ List.mem_map_of_mem (fun x => x.id) hy)
  have h2 : List.filter (fun x => x.id ≠ e.id) [e] = [] := by simp
  rw [h1, h2, List.append_nil]

theorem take50_cons {α : Type} (x : α) (l : List α) :
    (x :: l).take 50 = x :: l.take 49 := rfl

theorem take49_cons {α : Type} (x : α) (l : List α) :
    (x :: l).take 49 = x :: l.take 48 := rfl

theorem take49_of_take50 {α : Type} (l : List α) :
    (l.take 50).take 49 = l.take 49 := by
  rw [List.take_take, show (49 : Nat) ⊓ 50 = 49 from by decide]

/-- C10: adding an activity (resp. event) with a fresh id and then deleting
that id restores every field of the document except `logs`; each action
prepends exactly one log entry (so the two runs leave exactly the two new
entries in front of the original log, truncated to 48 old entries), the add
action's log is the prepend-then-truncate-to-50 of the original, and `addLog`
never lets the log exceed 50 entries. -/
theorem c10_add_delete_roundtrip (D : PlannerState) (a : Activity)
    (e : CalendarEvent) (l1 t1 l2 t2 : String)
    (ha : a.id ∉ D.activities.map (fun x => x.id))
    (he : e.id ∉ D.events.map (fun x => x.id)) :
    deleteActivity (addActivity D a l1 t1) a.id l2 t2 =
      { D with logs :=
          { id := l2, timestamp := t2, message := "Deleted an activity",
            userName := D.currentUser.name } ::
          { id := l1, timestamp := t1,
            message := "Created activity: " ++ a.name,
            userName := D.currentUser.name } :: D.logs.take 48 } ∧
    deleteEvent (addEvent D e l1 t1) e.id l2 t2 =
      { D with logs :=
          { id := l2, timestamp := t2,
            message := "Removed an event from calendar",
            userName := D.currentUser.name } ::
          { id := l1, timestamp := t1,
            message := "Added calendar event: " ++ jsOrOptStr e.customName "Activity",
            userName := D.currentUser.name } :: D.logs.take 48 } ∧
    (addActivity D a l1 t1).logs =
      ({ id := l1, timestamp := t1,
         message := "Created activity: " ++ a.name,
         userName := D.currentUser.name } :: D.logs).take 50 ∧
    (∀ s : PlannerState, ∀ logId ts msg : String,
      (addLog s logId ts msg).logs.length ≤ 50) := by
  refine ⟨?_, ?_, rfl, ?_⟩
  · simp only [deleteActivity, addActivity, addLog]
    rw [activities_add_delete D.activities a ha, take50_cons, take49_of_take50,
      take49_cons]
  · simp only [deleteEvent, addEvent, addLog]
    rw [events_add_delete D.events e he, take50_cons, take49_of_take50,
      take49_cons]
  · intro s logId ts msg
    simp only [addLog]
    exact List.length_take_le 50 _

/-- C10 witness: on the freshly built sample document (whose collections are
empty, so the ids are fresh) the add/delete pair leaves only the two new log
entries. -/
theorem c10_add_delete_roundtrip_witness :
    sampleActivity.id ∉ sampleState.activities.map (fun x => x.id) ∧
    baseSampleEvent.id ∉ sampleState.events.map (fun x => x.id) ∧
    deleteActivity (addActivity sampleState sampleActivity "l1" "t1")
        sampleActivity.id "l2" "t2" =
      { sampleState with logs :=
          { id := "l2", timestamp := "t2", message := "Deleted an activity",
            userName := sampleState.currentUser.name } ::
          { id := "l1", timestamp := "t1",
            message := "Created activity: " ++ sampleActivity.name,
            userName := sampleState.currentUser.name } ::
          sampleState.logs.take 48 } :=
  ⟨by decide, by decide,
   (c10_add_delete_roundtrip sampleState sampleActivity baseSampleEvent
     "l1" "t1" "l2" "t2" (by decide) (by decide)).1⟩

theorem roundMono {a b : ℚ} (h : a ≤ b) : round a ≤ round b := by
  rw [round_eq, round_eq]
  exact Int.floor_le_floor (by linarith)

theorem round_q_hundred : round ((100 : ℚ)) = 100 := by
  rw [show ((100 : ℚ)) = ((100 : ℤ) : ℚ) by norm_num, round_intCast]

theorem round2_mono {a b : ℚ} (h : a ≤ b) : round2 a ≤ round2 b := by
  unfold round2
  apply div_le_div_of_nonneg_right _ (by norm_num : (0:ℚ) < 100).le
  exact_mod_cast roundMono (by linarith : a * 100 ≤ b * 100)

theorem round2_hundred : round2 100 = 100 := by
  unfold round2
  rw [show (100 : ℚ) * 100 = ((10000 : ℤ) : ℚ) by norm_num, round_intCast]
  norm_num

theorem round2_zero : round2 0 = 0 := by
  unfold round2
  rw [show (0 : ℚ) * 100 = ((0 : ℤ) : ℚ) by norm_num, round_intCast]
  norm_num

theorem min_round2_comm (x : ℚ) : min 100 (round2 x) = round2 (min 100 x) := by
  rcases le_total x 100 with h | h
  · have hx : round2 x ≤ 100 := by
      have h2 := round2_mono h
      rwa [round2_hundred] at h2
    rw [min_eq_right hx, min_eq_right h]
  · have hx : (100 : ℚ) ≤ round2 x := by
      have h2 := round2_mono h
      rwa [round2_hundred] at h2
    rw [min_eq_left hx, min_eq_left h, round2_hundred]

theorem setProgress_progress (g : ProgressGoal) (p : ℚ) :
    (setProgress g p).progressPercentage = p := rfl

theorem setProgress_status_iff (g : ProgressGoal) (p : ℚ) :
    (setProgress g p).status = GoalStatus.Completed ↔ p = 100 := by
  simp only [setProgress]
  constructor
  · intro h
    by_cases h1 : p = 100
    · exact h1
    · rw [if_neg h1] at h
      split_ifs at h
  · intro h
    rw [if_pos h]

theorem setProgress_completed_iff (g : ProgressGoal) (p : ℚ) :
    (setProgress g p).status = GoalStatus.Completed ↔
      (setProgress g p).progressPercentage = 100 := by
  rw [setProgress_progress]
  exact setProgress_status_iff g p

theorem calculateTaskProgress_bounds (g : ProgressGoal) :
    0 ≤ (calculateTaskProgress g).progressPercentage ∧
    (calculateTaskProgress g).progressPercentage ≤ 100 := by
  unfold calculateTaskProgress
  by_cases hl : (g.tasks.getD []).length > 0
  · simp only [if_pos hl, setProgress_progress]
    have hT : (0 : ℚ) < ((g.tasks.getD []).length : ℚ) := by exact_mod_cast hl
    have hc : ((g.tasks.getD []).filter (fun t => t.completed)).length ≤
        (g.tasks.getD []).length := List.length_filter_le _ _
    have hcq : (((g.tasks.getD []).filter (fun t => t.completed)).length : ℚ) ≤
        ((g.tasks.getD []).length : ℚ) := by exact_mod_cast hc
    constructor
    · have h0 : (0 : ℚ) ≤
          (((g.tasks.getD []).filter (fun t => t.completed)).length : ℚ) /
            ((g.tasks.getD []).length : ℚ) * 100 := by positivity
      have hr := roundMono h0
      rw [round_zero] at hr
      exact_mod_cast hr
    · have harg : (((g.tasks.getD []).filter (fun t => t.completed)).length : ℚ) /
          ((g.tasks.getD []).length : ℚ) * 100 ≤ 100 := by
        rw [div_mul_eq_mul_div, div_le_iff₀ hT]
        nlinarith
      have hr := roundMono harg
      rw [round_q_hundred] at hr
      exact_mod_cast hr
  · simp only [if_neg hl, setProgress_progress]
    norm_num

theorem calculateTaskProgress_completed_iff (g : ProgressGoal) :
    (calculateTaskProgress g).status = GoalStatus.Completed ↔
      (calculateTaskProgress g).progressPercentage = 100 := by
  unfold calculateTaskProgress
  by_cases hl : (g.tasks.getD []).length > 0
  · simp only [if_pos hl]
    exact setProgress_completed_iff _ _
  · simp only [if_neg hl]
    exact setProgress_completed_iff _ _

theorem calculateProgress_le_hundred (g : ProgressGoal) :
    (calculateProgress g).progressPercentage ≤ 100 := by
  unfold calculateProgress
  cases hft : g.financialTarget with
  | none => exact (calculateTaskProgress_bounds g).2
  | some t =>
    by_cases ht : t ≠ 0
    · simp only [if_pos ht, setProgress_progress]
      split_ifs
      · exact min_le_left _ _
      · norm_num
    · simp only [if_neg ht]
      exact (calculateTaskProgress_bounds g).2

theorem calculateProgress_nonneg (g : ProgressGoal)
    (h : 0 ≤ contributionsTotal g) :
    0 ≤ (calculateProgress g).progressPercentage := by
  unfold calculateProgress
  cases hft : g.financialTarget with
  | none => exact (calculateTaskProgress_bounds g).1
  | some t =>
    by_cases ht : t ≠ 0
    · simp only [if_pos ht, setProgress_progress]
      split_ifs with htp
      · apply le_min (by norm_num)
        have harg : (0 : ℚ) ≤ contributionsTotal g / t * 100 := by positivity
        have hr := round2_mono harg
        rwa [round2_zero] at hr
      · exact le_refl 0
    · simp only [if_neg ht]
      exact (calculateTaskProgress_bounds g).1

theorem calculateProgress_completed_iff (g : ProgressGoal) :
    (calculateProgress g).status = GoalStatus.Completed ↔
      (calculateProgress g).progressPercentage = 100 := by
  unfold calculateProgress
  cases hft : g.financialTarget with
  | none => exact calculateTaskProgress_completed_iff g
  | some t =>
    by_cases ht : t ≠ 0
    · simp only [if_pos ht]
      exact setProgress_completed_iff _ _
    · simp only [if_neg ht]
      exact calculateTaskProgress_completed_iff g

/-- C5 (amended): with a nonzero positive financial target the recomputed
progress equals the spec's `round2(min(100, 100 * Σ amounts / target))` (the
implementation's `min(100, round2(...))` commutes with the rounding); a
negative target yields progress 0; but a target of exactly 0 is routed by
JavaScript truthiness to the task branch instead of yielding 0, the same
branch used when the target is absent, where progress is
`round(100 * completed / total)` with zero tasks giving 0; the spec's two
worked examples hold. -/
theorem c5_goal_progress (g : ProgressGoal) :
    (∀ t : ℚ, g.financialTarget = some t → 0 < t →
      (calculateProgress g).progressPercentage =
        specFinancialProgress (contributionsTotal g) t) ∧
    (∀ t : ℚ, g.financialTarget = some t → t < 0 →
      (calculateProgress g).progressPercentage = 0) ∧
    ((g.financialTarget = none ∨ g.financialTarget = some 0) →
      (calculateProgress g).progressPercentage =
        (if (g.tasks.getD []).length > 0 then
          specTaskProgress
            (((g.tasks.getD []).filter (fun t => t.completed)).length : ℚ)
            ((g.tasks.getD []).length : ℚ)
         else 0)) ∧
    (calculateProgress financialSampleGoal).progressPercentage = 25 ∧
    (calculateProgress financialSampleGoal).status = GoalStatus.InProgress ∧
    (calculateProgress taskSampleGoal).progressPercentage = 100 ∧
    (calculateProgress taskSampleGoal).status = GoalStatus.Completed := by
  refine ⟨?_, ?_, ?_, ?_, ?_, ?_, ?_⟩
  · intro t hft htp
    unfold calculateProgress
    rw [hft]
    simp only [if_pos (show t ≠ 0 from htp.ne'), setProgress_progress,
      if_pos htp]
    unfold specFinancialProgress
    rw [show contributionsTotal g / t * 100 = 100 * contributionsTotal g / t by
      ring, min_round2_comm]
  · intro t hft htn
    unfold calculateProgress
    rw [hft]
    simp only [if_pos (show t ≠ 0 from htn.ne), setProgress_progress,
      if_neg (show ¬ (0 < t) from not_lt.mpr htn.le)]
  · intro hor
    have hred : calculateProgress g = calculateTaskProgress g := by
      rcases hor with h | h <;> simp [calculateProgress, h]
    rw [hred]
    unfold calculateTaskProgress specTaskProgress
    by_cases hl : (g.tasks.getD []).length > 0
    · simp only [if_pos hl, setProgress_progress]
      congr 2
      ring
    · simp only [if_neg hl, setProgress_progress]
  · norm_num [calculateProgress, financialSampleGoal, contributionsTotal,
      setProgress, round2, round_eq]
  · norm_num [calculateProgress, financialSampleGoal, contributionsTotal,
      setProgress, round2, round_eq]
  · norm_num [calculateProgress, calculateTaskProgress, taskSampleGoal,
      setProgress, round_eq]
  · norm_num [calculateProgress, calculateTaskProgress, taskSampleGoal,
      setProgress, round_eq]

/-- C5 witness: the three conditional clauses exercised on concrete goals —
positive target 1000, negative target -50, and a task goal with no financial
target. -/
theorem c5_goal_progress_witness :
    (calculateProgress financialSampleGoal).progressPercentage =
      specFinancialProgress (contributionsTotal financialSampleGoal) 1000 ∧
    (calculateProgress negTargetGoal).progressPercentage = 0 ∧
    (calculateProgress taskSampleGoal).progressPercentage =
      (if (taskSampleGoal.tasks.getD []).length > 0 then
        specTaskProgress
          (((taskSampleGoal.tasks.getD []).filter (fun t => t.completed)).length : ℚ)
          ((taskSampleGoal.tasks.getD []).length : ℚ)
       else 0) :=
  ⟨(c5_goal_progress financialSampleGoal).1 1000 rfl (by decide),
   (c5_goal_progress negTargetGoal).2.1 (-50) rfl (by decide),
   (c5_goal_progress taskSampleGoal).2.2.1 (Or.inl rfl)⟩

/-- C5 counterexample: a goal whose financial target is exactly 0 is not
given progress 0 as the spec's `financialTarget <= 0` guard demands; the
falsy 0 falls through to the task branch, and with 3 of 3 tasks complete the
goal reports 100%. -/
theorem c5_zero_target_counterexample :
    zeroTargetGoal.financialTarget = some 0 ∧
    (calculateProgress zeroTargetGoal).progressPercentage = 100 ∧
    (calculateProgress zeroTargetGoal).progressPercentage ≠ 0 := by
  refine ⟨rfl, ?_, ?_⟩ <;>
    norm_num [calculateProgress, calculateTaskProgress, zeroTargetGoal,
      taskSampleGoal, setProgress, round_eq]

/-- C6 (amended): the recomputed progress never exceeds 100 and the status is
Completed exactly when it is 100, but the lower bound 0 only holds when the
contribution amounts sum to a nonnegative value — a negative sum is passed
through `min(100, ·)` unclamped. -/
theorem c6_progress_invariant (g : ProgressGoal) :
    (calculateProgress g).progressPercentage ≤ 100 ∧
    ((calculateProgress g).status = GoalStatus.Completed ↔
      (calculateProgress g).progressPercentage = 100) ∧
    (0 ≤ contributionsTotal g → 0 ≤ (calculateProgress g).progressPercentage) :=
  ⟨calculateProgress_le_hundred g, calculateProgress_completed_iff g,
   fun h => calculateProgress_nonneg g h⟩

/-- C6 witness: the sample financial goal has nonnegative contributions, so
its recomputed progress is nonnegative. -/
theorem c6_progress_invariant_witness :
    0 ≤ contributionsTotal financialSampleGoal ∧
    0 ≤ (calculateProgress financialSampleGoal).progressPercentage :=
  ⟨by norm_num [contributionsTotal, financialSampleGoal],
   (c6_progress_invariant financialSampleGoal).2.2
     (by norm_num [contributionsTotal, financialSampleGoal])⟩

theorem parseDateKeyChars_valid {l : List Char} {c : CalDate}
    (h : parseDateKeyChars l = some c) :
    1 ≤ c.month ∧ c.month ≤ 12 ∧ 1 ≤ c.day ∧
      c.day ≤ daysInMonth c.year c.month := by
  unfold parseDateKeyChars at h
  split at h
  · simp only [] at h
    split_ifs at h with hb hr
    · injection h with h
      subst h
      simp only [Bool.and_eq_true, decide_eq_true_eq] at hr
      exact ⟨hr.1.1.1, hr.1.1.2, hr.1.2, hr.2⟩
  · exact Option.noConfusion h

theorem weeklySpent_go (evts : List CalendarEvent) :
    ∀ a1 a2 a3 a4 a5 : Int,
      evts.foldl weeklySpentStep [a1, a2, a3, a4, a5] =
        [a1 + bucketSum evts 1, a2 + bucketSum evts 2, a3 + bucketSum evts 3,
         a4 + bucketSum evts 4, a5 + bucketSum evts 5] := by
  induction evts with
  | nil =>
    intro a1 a2 a3 a4 a5
    simp [bucketSum]
  | cons e es ih =>
    intro a1 a2 a3 a4 a5
    rw [List.foldl_cons]
    cases hp : parseDateKeyChars e.date.data with
    | none =>
      have hstep : weeklySpentStep [a1, a2, a3, a4, a5] e = [a1, a2, a3, a4, a5] := by
        unfold weeklySpentStep
        rw [hp]
      have hbn : ∀ k, bucketSum (e :: es) k = bucketSum es k := by
        intro k
        unfold bucketSum
        rw [List.filter_cons]
        have hf : (bucketOf e == some k) = false := by
          unfold bucketOf
          rw [hp]
          rfl
        simp [hf]
      rw [hstep, ih]
      simp only [hbn]
    | some d =>
      have hval := parseDateKeyChars_valid hp
      have hd1 := hval.2.2.1
      have hbo : bucketOf e = some (getWeekOfMonth d) := by
        unfold bucketOf
        rw [hp]
        rfl
      have hg1 : 1 ≤ getWeekOfMonth d := by
        unfold getWeekOfMonth
        omega
      have hstep : weeklySpentStep [a1, a2, a3, a4, a5] e =
          (if getWeekOfMonth d - 1 < 5 then
            bumpAt [a1, a2, a3, a4, a5] (getWeekOfMonth d - 1) (spendOf e)
           else [a1, a2, a3, a4, a5]) := by
        unfold weeklySpentStep
        rw [hp]
      generalize hgg : getWeekOfMonth d = g at hbo hg1 hstep
      have hbse : ∀ k, bucketSum (e :: es) k =
          (if g = k then spendOf e else 0) + bucketSum es k := by
        intro k
        by_cases hk : g = k
        · subst hk
          unfold bucketSum
          rw [List.filter_cons]
          simp [hbo]
        · rw [if_neg hk, zero_add]
          unfold bucketSum
          rw [List.filter_cons]
          have hf : (bucketOf e == some k) = false := by
            rw [hbo]
            simp [hk]
          simp [hf]
      by_cases hg6 : g < 6
      · interval_cases g
        · rw [hstep, if_pos (by norm_num),
            show bumpAt [a1, a2, a3, a4, a5] (1 - 1) (spendOf e) =
              [a1 + spendOf e, a2, a3, a4, a5] from rfl, ih]
          simp only [hbse, List.cons.injEq]
          norm_num
          ring
        · rw [hstep, if_pos (by norm_num),
            show bumpAt [a1, a2, a3, a4, a5] (2 - 1) (spendOf e) =
              [a1, a2 + spendOf e, a3, a4, a5] from rfl, ih]
          simp only [hbse, List.cons.injEq]
          norm_num
          ring
        · rw [hstep, if_pos (by norm_num),
            show bumpAt [a1, a2, a3, a4, a5] (3 - 1) (spendOf e) =
              [a1, a2, a3 + spendOf e, a4, a5] from rfl, ih]
          simp only [hbse, List.cons.injEq]
          norm_num
          ring
        · rw [hstep, if_pos (by norm_num),
            show bumpAt [a1, a2, a3, a4, a5] (4 - 1) (spendOf e) =
              [a1, a2, a3, a4 + spendOf e, a5] from rfl, ih]
          simp only [hbse, List.cons.injEq]
          norm_num
          ring
        · rw [hstep, if_pos (by norm_num),
            show bumpAt [a1, a2, a3, a4, a5] (5 - 1) (spendOf e) =
              [a1, a2, a3, a4, a5 + spendOf e] from rfl, ih]
          simp only [hbse, List.cons.injEq]
          norm_num
          ring
      · rw [hstep, if_neg (by omega), ih]
        have e1 : (if g = 1 then spendOf e else 0) = 0 := if_neg (by omega)
        have e2 : (if g = 2 then spendOf e else 0) = 0 := if_neg (by omega)
        have e3 : (if g = 3 then spendOf e else 0) = 0 := if_neg (by omega)
        have e4 : (if g = 4 then spendOf e else 0) = 0 := if_neg (by omega)
        have e5 : (if g = 5 then spendOf e else 0) = 0 := if_neg (by omega)
        simp only [hbse, e1, e2, e3, e4, e5, zero_add]

/-- C9 (amended): the fold over a month's expanded events credits each
parseable event whose computed week-of-month is 1 through 5 to exactly that
bucket's spend; an event whose computed bucket is 6 (or whose date does not
parse) is dropped entirely rather than clipped into bucket 5. -/
theorem c9_weekly_buckets (evts : List CalendarEvent) :
    weeklySpent evts =
      [bucketSum evts 1, bucketSum evts 2, bucketSum evts 3,
       bucketSum evts 4, bucketSum evts 5] := by
  unfold weeklySpent
  rw [weeklySpent_go]
  simp

/-- C9 counterexample: 2022-01-31 falls in computed week bucket 6 (January
2022 opens on a Saturday), and the dashboard drops its spend of 40 — every
weekly bucket stays 0 — where the claimed clipping would put 40 into
bucket 5. -/
theorem c9_week_six_counterexample :
    bucketOf eventWeekSix = some 6 ∧
    spendOf eventWeekSix = 40 ∧
    weeklySpent [eventWeekSix] = [0, 0, 0, 0, 0] ∧
    bucketSum [eventWeekSix] 5 = 0 := by
  decide

/-- C6 counterexample: a financial goal with target 1000 and a single
contribution of -100 reports progressPercentage = -10, outside [0, 100]. -/
theorem c6_negative_contribution_counterexample :
    (calculateProgress negContributionGoal).progressPercentage = -10 ∧
    ¬ (0 ≤ (calculateProgress negContributionGoal).progressPercentage) := by
  have h : (calculateProgress negContributionGoal).progressPercentage = -10 := by
    norm_num [calculateProgress, negContributionGoal, contributionsTotal,
      setProgress, round2, round_eq]
  exact ⟨h, by rw [h]; norm_num⟩

theorem dateLtB_iff (a b : CalDate) :
    dateLtB a b = true ↔
      (a.year < b.year ∨ (a.year = b.year ∧
        (a.month < b.month ∨ (a.month = b.month ∧ a.day < b.day)))) := by
  simp [dateLtB]

theorem dateLeB_iff (a b : CalDate) :
    dateLeB a b = true ↔ ¬ (dateLtB b a = true) := by
  simp [dateLeB]

theorem dateLeB_refl (a : CalDate) : dateLeB a a = true := by
  rw [dateLeB_iff, dateLtB_iff]
  omega

theorem dateLtB_le {a b : CalDate} (h : dateLtB a b = true) :
    dateLeB a b = true := by
  rw [dateLtB_iff] at h
  rw [dateLeB_iff, dateLtB_iff]
  omega

theorem dateLeB_trans {a b c : CalDate} (h1 : dateLeB a b = true)
    (h2 : dateLeB b c = true) : dateLeB a c = true := by
  rw [dateLeB_iff, dateLtB_iff] at h1 h2 ⊢
  omega

theorem nextDay_ge (c : CalDate) : dateLeB c (nextDay c) = true := by
  obtain ⟨cy, cm, cd⟩ := c
  unfold nextDay
  split_ifs with h1 h2 <;>
    (rw [dateLeB_iff, dateLtB_iff]; simp only []; omega)

theorem maxDate_ge_left (a b : CalDate) : dateLeB a (maxDate a b) = true := by
  unfold maxDate
  split_ifs with h
  · exact dateLtB_le h
  · exact dateLeB_refl a

theorem addDays_ge (n : Nat) : ∀ c : CalDate, dateLeB c (addDays n c) = true := by
  induction n with
  | zero => intro c; exact dateLeB_refl c
  | succ k ih =>
    intro c
    exact dateLeB_trans (nextDay_ge c) (ih (nextDay c))

theorem weeklyAlign_ge (fuel : Nat) :
    ∀ (c : CalDate) (w : Nat), dateLeB c (weeklyAlign fuel c w) = true := by
  induction fuel with
  | zero => intro c w; exact dateLeB_refl c
  | succ k ih =>
    intro c w
    show dateLeB c (if weekday c == w then c else weeklyAlign k (nextDay c) w) = true
    split_ifs with hw
    · exact dateLeB_refl c
    · exact dateLeB_trans (nextDay_ge c) (ih (nextDay c) w)

theorem weeklyCollect_mem (e : CalendarEvent) (fuel : Nat) :
    ∀ (cur eom : CalDate) (o : CalendarEvent),
      o ∈ weeklyCollect e fuel cur eom →
      ∃ c, o = mkOccurrence e c ∧ dateLeB cur c = true := by
  induction fuel with
  | zero =>
    intro cur eom o ho
    simp [weeklyCollect] at ho
  | succ k ih =>
    intro cur eom o ho
    rw [show weeklyCollect e (k + 1) cur eom =
        (if dateLeB cur eom then
          mkOccurrence e cur :: weeklyCollect e k (addDays 7 cur) eom
         else []) from rfl] at ho
    split_ifs at ho with hle
    · rcases List.mem_cons.mp ho with h | h
      · exact ⟨cur, h, dateLeB_refl cur⟩
      · obtain ⟨c, hc, hcc⟩ := ih (addDays 7 cur) eom o h
        exact ⟨c, hc, dateLeB_trans (addDays_ge 7 cur) hcc⟩
    · simp at ho

theorem jsMkDate_month_eq_iff (y m d : Nat) :
    (jsMkDate y m d).month = m ↔ d ≤ daysInMonth y m := by
  unfold jsMkDate
  split_ifs with h1 h2
  · simp only []
    exact iff_of_true trivial h1
  · simp only []
    exact iff_of_false (by omega) h1
  · simp only []
    exact iff_of_false (by omega) h1

theorem expand_never_precedes (e : CalendarEvent) (base : CalDate) (y m : Nat)
    (hb : parseEventDate e.date = some base) (hm : m ≤ 12)
    (hr : e.recurrence = some Recurrence.Weekly ∨
      e.recurrence = some Recurrence.Monthly ∨
      e.recurrence = some Recurrence.Yearly) :
    ∀ o ∈ expandEventForMonth y m e,
      ∃ c, o = mkOccurrence e c ∧ dateLeB base c = true := by
  intro o ho
  have hb' : parseDateKeyChars e.date.data = some base := hb
  have hbv := parseDateKeyChars_valid hb'
  rcases hr with h | h | h
  · simp only [expandEventForMonth, hb, h] at ho
    obtain ⟨c, hoc, hcc⟩ := weeklyCollect_mem e 10 _ _ o ho
    refine ⟨c, hoc, ?_⟩
    exact dateLeB_trans
      (dateLeB_trans (maxDate_ge_left base ⟨y, m, 1⟩) (weeklyAlign_ge 7 _ _)) hcc
  · simp only [expandEventForMonth, hb, h] at ho
    split_ifs at ho with h1 h2
    · simp at ho
    · simp at ho
    · have ho' : o = mkOccurrence e (jsMkDate y m base.day) :=
        List.mem_singleton.mp ho
      refine ⟨jsMkDate y m base.day, ho', ?_⟩
      have hmm : (jsMkDate y m base.day).month = m := not_ne_iff.mp h2
      have hdle : base.day ≤ daysInMonth y m :=
        (jsMkDate_month_eq_iff y m base.day).mp hmm
      have hc : jsMkDate y m base.day = ⟨y, m, base.day⟩ := by
        unfold jsMkDate
        rw [if_pos hdle]
      rw [hc, dateLeB_iff, dateLtB_iff]
      have h1' : 0 ≤ ((y : Int) - (base.year : Int)) * 12 +
          ((m : Int) - (base.month : Int)) := not_lt.mp h1
      have hbm1 := hbv.1
      have hbm2 := hbv.2.1
      simp only []
      omega
  · simp only [expandEventForMonth, hb, h] at ho
    split_ifs at ho with h1 h2 h3
    · simp at ho
    · simp at ho
    · simp at ho
    · have ho' : o = mkOccurrence e (jsMkDate y m base.day) :=
        List.mem_singleton.mp ho
      refine ⟨jsMkDate y m base.day, ho', ?_⟩
      have hmm : (jsMkDate y m base.day).month = m := not_ne_iff.mp h3
      have hdle : base.day ≤ daysInMonth y m :=
        (jsMkDate_month_eq_iff y m base.day).mp hmm
      have hc : jsMkDate y m base.day = ⟨y, m, base.day⟩ := by
        unfold jsMkDate
        rw [if_pos hdle]
      have hmb : m = base.month := not_ne_iff.mp h2
      rw [hc, dateLeB_iff, dateLtB_iff]
      simp only []
      omega

theorem expand_shape (e : CalendarEvent) (y m : Nat) :
    ∀ o ∈ expandEventForMonth y m e,
      (∃ c, o = mkOccurrence e c) ∨ o = e := by
  intro o ho
  cases hp : parseEventDate e.date with
  | none =>
    simp only [expandEventForMonth, hp] at ho
    simp at ho
  | some base =>
    cases hr : e.recurrence with
    | none =>
      simp only [expandEventForMonth, hp, hr] at ho
      split_ifs at ho
      · right; exact List.mem_singleton.mp ho
      · simp at ho
    | some r =>
      cases r with
      | None =>
        simp only [expandEventForMonth, hp, hr] at ho
        split_ifs at ho
        · right; exact List.mem_singleton.mp ho
        · simp at ho
      | Weekly =>
        simp only [expandEventForMonth, hp, hr] at ho
        obtain ⟨c, hoc, _⟩ := weeklyCollect_mem e 10 _ _ o ho
        exact Or.inl ⟨c, hoc⟩
      | Monthly =>
        simp only [expandEventForMonth, hp, hr] at ho
        split_ifs at ho
        · simp at ho
        · simp at ho
        · exact Or.inl ⟨jsMkDate y m base.day, List.mem_singleton.mp ho⟩
      | Yearly =>
        simp only [expandEventForMonth, hp, hr] at ho
        split_ifs at ho
        · simp at ho
        · simp at ho
        · simp at ho
        · exact Or.inl ⟨jsMkDate y m base.day, List.mem_singleton.mp ho⟩

theorem day_shape (de : DisplayEvent) (day : CalDate)
    (hg : de.isGoalDerived = false) (hbd : de.isBirthdayDerived = false) :
    ∀ o ∈ getExpandedEventsForDay [de] day,
      (∃ c, o = mkDayOccurrence de c) ∨ o = de := by
  intro o ho
  simp only [getExpandedEventsForDay, List.flatMap_cons, List.flatMap_nil,
    List.append_nil, hg, hbd, Bool.or_self, Bool.false_eq_true, if_false] at ho
  cases hr : de.recurrence with
  | none =>
    simp only [hr] at ho
    split_ifs at ho
    · right; exact List.mem_singleton.mp ho
    · simp at ho
  | some r =>
    cases r with
    | None =>
      simp only [hr] at ho
      split_ifs at ho
      · right; exact List.mem_singleton.mp ho
      · simp at ho
    | Weekly =>
      simp only [hr] at ho
      cases hp : parseDateKeyChars (toEventDateKey de.date).data with
      | none => simp only [hp] at ho; simp at ho
      | some start =>
        simp only [hp] at ho
        split_ifs at ho
        · simp at ho
        · simp at ho
        · exact Or.inl ⟨day, List.mem_singleton.mp ho⟩
    | Monthly =>
      simp only [hr] at ho
      cases hp : parseDateKeyChars (toEventDateKey de.date).data with
      | none => simp only [hp] at ho; simp at ho
      | some start =>
        simp only [hp] at ho
        split_ifs at ho
        · simp at ho
        · simp at ho
        · exact Or.inl ⟨day, List.mem_singleton.mp ho⟩
    | Yearly =>
      simp only [hr] at ho
      cases hp : parseDateKeyChars (toEventDateKey de.date).data with
      | none => simp only [hp] at ho; simp at ho
      | some start =>
        simp only [hp] at ho
        split_ifs at ho
        · simp at ho
        · simp at ho
        · simp at ho
        · exact Or.inl ⟨day, List.mem_singleton.mp ho⟩

/-- C7: a Monthly template produces its sole occurrence at the template's
day-of-month, and only in months where that day exists — a 31st in a shorter
month is skipped, never clamped; a Yearly template anchored to Feb 29 yields
nothing in non-leap years; and no Weekly, Monthly or Yearly occurrence of
either projector ever precedes the template's own date. -/
theorem c7_recurrence_no_clamp (e : CalendarEvent) (base : CalDate) (y m : Nat)
    (hb : parseEventDate e.date = some base) :
    (e.recurrence = some Recurrence.Monthly →
      expandEventForMonth y m e =
        (if ((y : Int) - (base.year : Int)) * 12 +
              ((m : Int) - (base.month : Int)) < 0 ∨
            daysInMonth y m < base.day then []
         else [mkOccurrence e ⟨y, m, base.day⟩])) ∧
    (e.recurrence = some Recurrence.Yearly → base.month = 2 → base.day = 29 →
      isLeapYear y = false → expandEventForMonth y m e = []) ∧
    (m ≤ 12 →
      (e.recurrence = some Recurrence.Weekly ∨
        e.recurrence = some Recurrence.Monthly ∨
        e.recurrence = some Recurrence.Yearly) →
      ∀ o ∈ expandEventForMonth y m e,
        ∃ c, o = mkOccurrence e c ∧ dateLeB base c = true) ∧
    (∀ de : DisplayEvent, ∀ start day : CalDate,
      de.isGoalDerived = false → de.isBirthdayDerived = false →
      (de.recurrence = some Recurrence.Weekly ∨
        de.recurrence = some Recurrence.Monthly ∨
        de.recurrence = some Recurrence.Yearly) →
      parseDateKeyChars (toEventDateKey de.date).data = some start →
      dateLtB day start = true →
      getExpandedEventsForDay [de] day = []) := by
  refine ⟨?_, ?_, ?_, ?_⟩
  · intro hrec
    simp only [expandEventForMonth, hb, hrec]
    by_cases h1 : ((y : Int) - (base.year : Int)) * 12 +
        ((m : Int) - (base.month : Int)) < 0
    · rw [if_pos h1, if_pos (Or.inl h1)]
    · rw [if_neg h1]
      by_cases h2 : daysInMonth y m < base.day
      · have hne : (jsMkDate y m base.day).month ≠ m := by
          rw [Ne, jsMkDate_month_eq_iff]
          omega
        rw [if_pos hne, if_pos (Or.inr h2)]
      · have hle : base.day ≤ daysInMonth y m := by omega
        have hmeq : (jsMkDate y m base.day).month = m :=
          (jsMkDate_month_eq_iff y m base.day).mpr hle
        rw [if_neg (not_ne_iff.mpr hmeq), if_neg (by omega :
          ¬ (((y : Int) - (base.year : Int)) * 12 +
              ((m : Int) - (base.month : Int)) < 0 ∨
            daysInMonth y m < base.day))]
        have hc : jsMkDate y m base.day = ⟨y, m, base.day⟩ := by
          unfold jsMkDate
          rw [if_pos hle]
        rw [hc]
  · intro hrec hbm hbd hleap
    simp only [expandEventForMonth, hb, hrec]
    by_cases h1 : y < base.year
    · rw [if_pos h1]
    · rw [if_neg h1]
      by_cases h2 : m ≠ base.month
      · rw [if_pos h2]
      · rw [if_neg h2]
        have hmb : m = base.month := not_ne_iff.mp h2
        have hdm : daysInMonth y m = 28 := by
          rw [hmb, hbm]
          simp [daysInMonth, hleap]
        have hne : (jsMkDate y m base.day).month ≠ m := by
          rw [Ne, jsMkDate_month_eq_iff]
          omega
        rw [if_pos hne]
  · intro hm hr
    exact expand_never_precedes e base y m hb hm hr
  · intro de start day hg hbd hrec hparse hlt
    rcases hrec with h | h | h <;>
      simp [getExpandedEventsForDay, hg, hbd, h, hparse, hlt]

/-- C7 witness: day 31 is skipped in February 2024; the Feb-29 Yearly
template is silent in 2023; the January Monthly occurrence does not precede
its template; and a Weekly display event is absent from a day before its
start. -/
theorem c7_recurrence_no_clamp_witness :
    expandEventForMonth 2024 2 monthly31Event = [] ∧
    expandEventForMonth 2023 2 feb29Event = [] ∧
    (∃ c, mkOccurrence monthly31Event ⟨2024, 1, 31⟩ = mkOccurrence monthly31Event c ∧
      dateLeB ⟨2024, 1, 31⟩ c = true) ∧
    getExpandedEventsForDay [weeklyDisplayEvent] ⟨2023, 12, 25⟩ = [] := by
  refine ⟨?_, ?_, ?_, ?_⟩
  · have h := (c7_recurrence_no_clamp monthly31Event ⟨2024, 1, 31⟩ 2024 2
      (by decide)).1 rfl
    rw [h]
    decide
  · exact (c7_recurrence_no_clamp feb29Event ⟨2024, 2, 29⟩ 2023 2
      (by decide)).2.1 rfl rfl rfl (by decide)
  · exact (c7_recurrence_no_clamp monthly31Event ⟨2024, 1, 31⟩ 2024 1
      (by decide)).2.2.1 (by decide) (Or.inr (Or.inl rfl))
      (mkOccurrence monthly31Event ⟨2024, 1, 31⟩) (by decide)
  · exact (c7_recurrence_no_clamp monthly31Event ⟨2024, 1, 31⟩ 2024 1
      (by decide)).2.2.2 weeklyDisplayEvent ⟨2024, 1, 1⟩ ⟨2023, 12, 25⟩
      rfl rfl (Or.inl rfl) (by decide) (by decide)

/-- C8 (amended): every occurrence of the month projector is the template
with exactly `id` and `date` replaced (`id = templateId ++ "-" ++ key`,
`date = key`, every other field untouched), but the day projector's
occurrences additionally overwrite `recurrenceSourceId` with the template's
id, so they can differ from the template in a third field. -/
theorem c8_occurrence_frame (e : CalendarEvent) (de : DisplayEvent)
    (y m : Nat) (day : CalDate) :
    (∀ o ∈ expandEventForMonth y m e,
      (∃ c, o = mkOccurrence e c) ∨ o = e) ∧
    (∀ c, (mkOccurrence e c).id = e.id ++ "-" ++ dateKey c ∧
      (mkOccurrence e c).date = dateKey c ∧
      (mkOccurrence e c).startTime = e.startTime ∧
      (mkOccurrence e c).endTime = e.endTime ∧
      (mkOccurrence e c).recurrence = e.recurrence ∧
      (mkOccurrence e c).activityId = e.activityId ∧
      (mkOccurrence e c).customName = e.customName ∧
      (mkOccurrence e c).category = e.category ∧
      (mkOccurrence e c).estimatedCost = e.estimatedCost ∧
      (mkOccurrence e c).actualCost = e.actualCost ∧
      (mkOccurrence e c).duration = e.duration ∧
      (mkOccurrence e c).notes = e.notes ∧
      (mkOccurrence e c).createdBy = e.createdBy ∧
      (mkOccurrence e c).lastModifiedBy = e.lastModifiedBy ∧
      (mkOccurrence e c).scope = e.scope ∧
      (mkOccurrence e c).targetUserId = e.targetUserId) ∧
    (de.isGoalDerived = false → de.isBirthdayDerived = false →
      ∀ o ∈ getExpandedEventsForDay [de] day,
        (∃ c, o = mkDayOccurrence de c) ∨ o = de) ∧
    (∀ c, (mkDayOccurrence de c).id = de.id ++ "-" ++ dateKey c ∧
      (mkDayOccurrence de c).date = dateKey c ∧
      (mkDayOccurrence de c).recurrenceSourceId = some de.id ∧
      (mkDayOccurrence de c).startTime = de.startTime ∧
      (mkDayOccurrence de c).endTime = de.endTime ∧
      (mkDayOccurrence de c).recurrence = de.recurrence ∧
      (mkDayOccurrence de c).activityId = de.activityId ∧
      (mkDayOccurrence de c).customName = de.customName ∧
      (mkDayOccurrence de c).category = de.category ∧
      (mkDayOccurrence de c).estimatedCost = de.estimatedCost ∧
      (mkDayOccurrence de c).actualCost = de.actualCost ∧
      (mkDayOccurrence de c).duration = de.duration ∧
      (mkDayOccurrence de c).notes = de.notes ∧
      (mkDayOccurrence de c).createdBy = de.createdBy ∧
      (mkDayOccurrence de c).lastModifiedBy = de.lastModifiedBy ∧
      (mkDayOccurrence de c).scope = de.scope ∧
      (mkDayOccurrence de c).targetUserId = de.targetUserId ∧
      (mkDayOccurrence de c).isGoalDerived = de.isGoalDerived ∧
      (mkDayOccurrence de c).isBirthdayDerived = de.isBirthdayDerived) :=
  ⟨expand_shape e y m,
   fun _ => ⟨rfl, rfl, rfl, rfl, rfl, rfl, rfl, rfl, rfl, rfl, rfl, rfl, rfl,
     rfl, rfl, rfl⟩,
   fun hg hbd => day_shape de day hg hbd,
   fun _ => ⟨rfl, rfl, rfl, rfl, rfl, rfl, rfl, rfl, rfl, rfl, rfl, rfl, rfl,
     rfl, rfl, rfl, rfl, rfl, rfl⟩⟩

/-- C8 witness: the shape facts applied to the sample Monthly template's
January expansion and to the Weekly display event's occurrence on
2024-01-08. -/
theorem c8_occurrence_frame_witness :
    ((∃ c, mkOccurrence monthly31Event ⟨2024, 1, 31⟩ =
        mkOccurrence monthly31Event c) ∨
      mkOccurrence monthly31Event ⟨2024, 1, 31⟩ = monthly31Event) ∧
    ((∃ c, mkDayOccurrence weeklyDisplayEvent ⟨2024, 1, 8⟩ =
        mkDayOccurrence weeklyDisplayEvent c) ∨
      mkDayOccurrence weeklyDisplayEvent ⟨2024, 1, 8⟩ = weeklyDisplayEvent) :=
  ⟨(c8_occurrence_frame monthly31Event weeklyDisplayEvent 2024 1 ⟨2024, 1, 8⟩).1
    (mkOccurrence monthly31Event ⟨2024, 1, 31⟩) (by decide),
   (c8_occurrence_frame monthly31Event weeklyDisplayEvent 2024 1 ⟨2024, 1, 8⟩).2.2.1
    rfl rfl (mkDayOccurrence weeklyDisplayEvent ⟨2024, 1, 8⟩) (by decide)⟩

/-- C8 counterexample: the day projector's occurrence of the Weekly display
event on 2024-01-08 carries `recurrenceSourceId = some "ev1"` while the
template's is `none` — a third differing field beyond `id` and `date`. -/
theorem c8_recurrence_source_counterexample :
    getExpandedEventsForDay [weeklyDisplayEvent] ⟨2024, 1, 8⟩ =
      [mkDayOccurrence weeklyDisplayEvent ⟨2024, 1, 8⟩] ∧
    (mkDayOccurrence weeklyDisplayEvent ⟨2024, 1, 8⟩).recurrenceSourceId =
      some weeklyDisplayEvent.id ∧
    weeklyDisplayEvent.recurrenceSourceId = none ∧
    (mkDayOccurrence weeklyDisplayEvent ⟨2024, 1, 8⟩).recurrenceSourceId ≠
      weeklyDisplayEvent.recurrenceSourceId := by
  decide

end CouplePlanner
